import Mathlib

/-!
Verification development for the rusty-kodi MPD protocol engine.

The Rust sources (mpd-server-protocol/src/lib.rs, mpd-server-protocol/src/tags.rs,
kodi-mpd-proxy/src/main.rs, kodi-mpd-proxy/src/player.rs) are shallowly embedded:
byte slices become lists of natural numbers below 256, usize becomes Nat with an
explicit 2^64 - 1 bound and checked arithmetic, fallible functions return Except,
and the asynchronous session/handler plumbing becomes explicit state passing with
the backend handler given as a pure oracle.

Rust String values are kept as their UTF-8 bytes throughout, so the
into_string_lossy conversions of the source are the identity map (exact on the
valid UTF-8 inputs all claims use). In RangeInclusive::from_bytes the source
indexes bytes[pos] directly; pos is always in bounds there, and the model uses
getD with a default that behaves identically on every reachable input.
-/

namespace RustyKodi

/-- Byte sequences: each byte is a natural number below 256. -/
abbrev Bytes := List Nat

/-- Bytes of an ASCII string literal (code point of each character). -/
def strBytes (s : String) : Bytes := s.data.map Char.toNat

/-- Maximum value of the 64-bit usize type used by the source. -/
def USIZE_MAX : Nat := 2 ^ 64 - 1

/-- Rust usize::checked_mul: none on overflow. -/
def checkedMul (a b : Nat) : Option Nat :=
  if a * b ≤ USIZE_MAX then some (a * b) else none

/-- Rust usize::checked_add: none on overflow. -/
def checkedAdd (a b : Nat) : Option Nat :=
  if a + b ≤ USIZE_MAX then some (a + b) else none

/-- ASCII digit test, mirroring the byte pattern b'0'..=b'9'. -/
def isDigitByte (b : Nat) : Bool := 48 ≤ b && b ≤ 57

/-- Embeds enum BStringParseError of mpd-server-protocol/src/lib.rs. -/
inductive BStringParseError
  | Empty
  | BadEscapeSequence
  | MissingClosingDelimiter (c : Nat)
deriving DecidableEq

/-- Display impl for BStringParseError (the ACK message text). -/
def BStringParseError.message : BStringParseError → Bytes
  | .Empty => strBytes "Invalid empty value"
  | .BadEscapeSequence => strBytes "Bad escape sequence"
  | .MissingClosingDelimiter c => strBytes "Missing closing " ++ [39, c, 39]

/-- Loop body of fn unescape_arg: out is the accumulated unescaped bytes.
A backslash (byte 92) escapes the next byte literally, as the source matches
it before comparing with the delimiter. -/
def unescapeArgGo (delimiter : Nat) (out : Bytes) : Bytes → Except BStringParseError (Bytes × Bytes)
  | [] => .error (.MissingClosingDelimiter delimiter)
  | c :: rest =>
    if c = 92 then
      match rest with
      | [] => .error .BadEscapeSequence
      | c2 :: rest2 => unescapeArgGo delimiter (out ++ [c2]) rest2
    else if c = delimiter then .ok (out, rest)
    else unescapeArgGo delimiter (out ++ [c]) rest

/-- Embeds fn unescape_arg of mpd-server-protocol/src/lib.rs. -/
def unescape_arg (delimiter : Nat) (arg : Bytes) : Except BStringParseError (Bytes × Bytes) :=
  unescapeArgGo delimiter [] arg

/-- Embeds impl FromBytes for BString (bare or quoted token). -/
def bstringFromBytes (bytes : Bytes) : Except BStringParseError (Bytes × Bytes) :=
  match bytes with
  | [] => .error .Empty
  | first :: rest =>
    if first = 34 ∨ first = 39 then unescape_arg first rest
    else if first = 32 then .error .Empty
    else
      match bytes.findIdx? (fun b => b = 32) with
      | some pos => .ok (bytes.take pos, bytes.drop (pos + 1))
      | none => .ok (bytes, [])

/-- Embeds enum IntParseError of mpd-server-protocol/src/lib.rs. -/
inductive IntParseError
  | Empty
  | InvalidDigit (num : Option Nat) (pos : Nat)
  | Overflow
  | MissingClosingDelimiter (c : Nat)
deriving DecidableEq

/-- Display impl for IntParseError (the ACK message text). -/
def IntParseError.message : IntParseError → Bytes
  | .Empty => strBytes "Invalid empty value"
  | .InvalidDigit _ _ => strBytes "Invalid digit"
  | .Overflow => strBytes "Integer overflow"
  | .MissingClosingDelimiter c => strBytes "Missing closing " ++ [39, c, 39]

/-- Body of the for loop of fn parse_integer: num is the accumulator and pos
the position (within the slice handed to parse_integer) of the next byte. -/
def parseIntLoop (delimiter num pos : Nat) : Bytes → Except IntParseError (Nat × Bytes)
  | [] =>
    if delimiter = 32 then .ok (num, [])
    else .error (.MissingClosingDelimiter delimiter)
  | b :: rest =>
    if isDigitByte b then
      match checkedMul num 10 with
      | none => .error .Overflow
      | some m =>
        match checkedAdd m (b - 48) with
        | none => .error .Overflow
        | some num2 => parseIntLoop delimiter num2 (pos + 1) rest
    else if b = delimiter then .ok (num, rest)
    else .error (.InvalidDigit (some num) pos)

/-- Embeds fn parse_integer of mpd-server-protocol/src/lib.rs. -/
def parse_integer (delimiter : Nat) (bytes : Bytes) : Except IntParseError (Nat × Bytes) :=
  match bytes with
  | [] => .error .Empty
  | first :: rest =>
    if isDigitByte first then parseIntLoop delimiter (first - 48) 1 rest
    else if first = delimiter then .error .Empty
    else .error (.InvalidDigit none 0)

/-- Embeds impl FromBytes for usize (integer token, optionally double-quoted). -/
def usizeFromBytes (bytes : Bytes) : Except IntParseError (Nat × Bytes) :=
  match bytes with
  | [] => .error .Empty
  | first :: rest =>
    if first = 34 then parse_integer 34 rest else parse_integer 32 bytes

/-- Embeds impl FromBytes for RangeInclusive of usize; a range is a pair
(start, end) of an inclusive interval. -/
def rangeFromBytes (bytes : Bytes) : Except IntParseError ((Nat × Nat) × Bytes) :=
  match usizeFromBytes bytes with
  | .ok (num, rest) => .ok ((num, num), rest)
  | .error (.InvalidDigit (some num) pos) =>
    if bytes.getD pos 0 = 58 then
      match usizeFromBytes (bytes.drop (pos + 1)) with
      | .ok (e, rest) => .ok ((num, e), rest)
      | .error err => .error err
    else .error (.InvalidDigit (some num) pos)
  | .error err => .error err

/-- Embeds fn skip_whitespace (whitespace is the single ASCII space). -/
def skip_whitespace (input : Bytes) : Bytes := input.dropWhile (fun b => b = 32)

/-- Decimal ASCII bytes of a natural number (most significant digit first),
with explicit fuel so the definition is structurally recursive; this is the
claim-side description of the wire form of an integer. -/
def decBytesCore (fuel n : Nat) (acc : Bytes) : Bytes :=
  match fuel with
  | 0 => acc
  | fuel + 1 =>
    if n < 10 then (48 + n) :: acc
    else decBytesCore fuel (n / 10) ((48 + n % 10) :: acc)

/-- Decimal ASCII representation of a natural number. -/
def decBytes (n : Nat) : Bytes := decBytesCore (n + 1) n []

/-- Value of a digit run folded onto an accumulator, exactly as the
parse_integer loop accumulates. -/
def valFrom (a : Nat) (ds : Bytes) : Nat := ds.foldl (fun n b => n * 10 + (b - 48)) a

/-- Numeric value of a decimal digit run. -/
def digitsVal (ds : Bytes) : Nat := valFrom 0 ds

/-- Embeds enum TagType of mpd-server-protocol/src/tags.rs. -/
inductive TagType
  | Artist | ArtistSort | Album | AlbumSort | AlbumArtist | AlbumArtistSort
  | Title | Track | Name | Genre | Date | OriginalDate | Composer | Performer
  | Conductor | Work | Grouping | Comment | Disc | Label
  | MusicBrainzArtistId | MusicBrainzAlbumId | MusicBrainzAlbumArtistId
  | MusicBrainzTrackId | MusicBrainzReleaseTrackId | MusicBrainzWorkId
deriving DecidableEq

/-- All TagType values in declaration order (the iteration order of EnumSet). -/
def allTagTypes : List TagType :=
  [.Artist, .ArtistSort, .Album, .AlbumSort, .AlbumArtist, .AlbumArtistSort,
   .Title, .Track, .Name, .Genre, .Date, .OriginalDate, .Composer, .Performer,
   .Conductor, .Work, .Grouping, .Comment, .Disc, .Label,
   .MusicBrainzArtistId, .MusicBrainzAlbumId, .MusicBrainzAlbumArtistId,
   .MusicBrainzTrackId, .MusicBrainzReleaseTrackId, .MusicBrainzWorkId]

/-- Embeds TagType::from_bytes of tags.rs. -/
def TagType.fromBytes (bytes : Bytes) : Option TagType :=
  if bytes = strBytes "artist" then some .Artist
  else if bytes = strBytes "artistsort" then some .ArtistSort
  else if bytes = strBytes "album" then some .Album
  else if bytes = strBytes "albumsort" then some .AlbumSort
  else if bytes = strBytes "albumartist" then some .AlbumArtist
  else if bytes = strBytes "albumartistsort" then some .AlbumArtistSort
  else if bytes = strBytes "title" then some .Title
  else if bytes = strBytes "track" then some .Track
  else if bytes = strBytes "name" then some .Name
  else if bytes = strBytes "genre" then some .Genre
  else if bytes = strBytes "date" then some .Date
  else if bytes = strBytes "originaldate" then some .OriginalDate
  else if bytes = strBytes "composer" then some .Composer
  else if bytes = strBytes "performer" then some .Performer
  else if bytes = strBytes "conductor" then some .Conductor
  else if bytes = strBytes "work" then some .Work
  else if bytes = strBytes "grouping" then some .Grouping
  else if bytes = strBytes "comment" then some .Comment
  else if bytes = strBytes "disc" then some .Disc
  else if bytes = strBytes "label" then some .Label
  else if bytes = strBytes "musicbrainz_artistid" then some .MusicBrainzArtistId
  else if bytes = strBytes "musicbrainz_albumid" then some .MusicBrainzAlbumId
  else if bytes = strBytes "musicbrainz_albumartistid" then some .MusicBrainzAlbumArtistId
  else if bytes = strBytes "musicbrainz_trackid" then some .MusicBrainzTrackId
  else if bytes = strBytes "musicbrainz_releasetrackid" then some .MusicBrainzReleaseTrackId
  else if bytes = strBytes "musicbrainz_workid" then some .MusicBrainzWorkId
  else none

/-- Display impl for TagType (canonical spelling). -/
def TagType.display : TagType → Bytes
  | .Artist => strBytes "Artist"
  | .ArtistSort => strBytes "ArtistSort"
  | .Album => strBytes "Album"
  | .AlbumSort => strBytes "AlbumSort"
  | .AlbumArtist => strBytes "AlbumArtist"
  | .AlbumArtistSort => strBytes "AlbumArtistSort"
  | .Title => strBytes "Title"
  | .Track => strBytes "Track"
  | .Name => strBytes "Name"
  | .Genre => strBytes "Genre"
  | .Date => strBytes "Date"
  | .OriginalDate => strBytes "OriginalDate"
  | .Composer => strBytes "Composer"
  | .Performer => strBytes "Performer"
  | .Conductor => strBytes "Conductor"
  | .Work => strBytes "Work"
  | .Grouping => strBytes "Grouping"
  | .Comment => strBytes "Comment"
  | .Disc => strBytes "Disc"
  | .Label => strBytes "Label"
  | .MusicBrainzArtistId => strBytes "MUSICBRAINZ_ARTISTID"
  | .MusicBrainzAlbumId => strBytes "MUSICBRAINZ_ALBUMID"
  | .MusicBrainzAlbumArtistId => strBytes "MUSICBRAINZ_ALBUMARTISTID"
  | .MusicBrainzTrackId => strBytes "MUSICBRAINZ_TRACKID"
  | .MusicBrainzReleaseTrackId => strBytes "MUSICBRAINZ_RELEASETRACKID"
  | .MusicBrainzWorkId => strBytes "MUSICBRAINZ_WORKID"

/-- Embeds enum MPDSubsystem of mpd-server-protocol/src/lib.rs. -/
inductive MPDSubsystem
  | Database | Message | Mixer | Mount | Neighbor | Options | Outputs
  | Partition | Player | Playlist | Sticker | StoredPlaylist | Subscription | Update
deriving DecidableEq

/-- All MPDSubsystem values in declaration order (EnumSet iteration order and
the order of the enum_map in the change ledger). -/
def allSubsystems : List MPDSubsystem :=
  [.Database, .Message, .Mixer, .Mount, .Neighbor, .Options, .Outputs,
   .Partition, .Player, .Playlist, .Sticker, .StoredPlaylist, .Subscription, .Update]

/-- Embeds MPDSubsystem::from_bytes. -/
def MPDSubsystem.fromBytes (bytes : Bytes) : Option MPDSubsystem :=
  if bytes = strBytes "database" then some .Database
  else if bytes = strBytes "message" then some .Message
  else if bytes = strBytes "mixer" then some .Mixer
  else if bytes = strBytes "mount" then some .Mount
  else if bytes = strBytes "neighbor" then some .Neighbor
  else if bytes = strBytes "options" then some .Options
  else if bytes = strBytes "output" then some .Outputs
  else if bytes = strBytes "partition" then some .Partition
  else if bytes = strBytes "player" then some .Player
  else if bytes = strBytes "playlist" then some .Playlist
  else if bytes = strBytes "sticker" then some .Sticker
  else if bytes = strBytes "stored_playlist" then some .StoredPlaylist
  else if bytes = strBytes "subscription" then some .Subscription
  else if bytes = strBytes "update" then some .Update
  else none

/-- Display impl for MPDSubsystem (wire spelling). -/
def MPDSubsystem.display : MPDSubsystem → Bytes
  | .Database => strBytes "database"
  | .Message => strBytes "message"
  | .Mixer => strBytes "mixer"
  | .Mount => strBytes "mount"
  | .Neighbor => strBytes "neighbor"
  | .Options => strBytes "options"
  | .Outputs => strBytes "output"
  | .Partition => strBytes "partition"
  | .Player => strBytes "player"
  | .Playlist => strBytes "playlist"
  | .Sticker => strBytes "sticker"
  | .StoredPlaylist => strBytes "stored_playlist"
  | .Subscription => strBytes "subscription"
  | .Update => strBytes "update"

/-- EnumSet of TagType, modelled as its membership predicate. -/
abbrev TagSet := TagType → Bool

/-- EnumSet of MPDSubsystem, modelled as its membership predicate. -/
abbrev SubsystemSet := MPDSubsystem → Bool

def emptyTagSet : TagSet := fun _ => false

def allTagSet : TagSet := fun _ => true

def insertTag (s : TagSet) (t : TagType) : TagSet := fun x => if x = t then true else s x

def tagSetIsEmpty (s : TagSet) : Bool := allTagTypes.all (fun t => !(s t))

def tagSetToList (s : TagSet) : List TagType := allTagTypes.filter s

def emptySubsystemSet : SubsystemSet := fun _ => false

def allSubsystemSet : SubsystemSet := fun _ => true

def insertSubsystem (s : SubsystemSet) (t : MPDSubsystem) : SubsystemSet :=
  fun x => if x = t then true else s x

def subsystemSetIsEmpty (s : SubsystemSet) : Bool := allSubsystems.all (fun t => !(s t))

def subsystemSetToList (s : SubsystemSet) : List MPDSubsystem := allSubsystems.filter s

/-- Embeds enum MPDState. -/
inductive MPDState
  | Play | Stop | Pause
deriving DecidableEq

/-- Display impl for MPDState. -/
def MPDState.display : MPDState → Bytes
  | .Play => strBytes "play"
  | .Stop => strBytes "stop"
  | .Pause => strBytes "pause"

/-- Rust std::time::Duration: whole seconds plus nanoseconds. -/
structure MDuration where
  secs : Nat
  nanos : Nat
deriving DecidableEq

/-- Duration::from_secs. -/
def MDuration.fromSecs (s : Nat) : MDuration := ⟨s, 0⟩

/-- Embeds struct MPDStatus. The repeat flag is called repeatFlag because
repeat is a Lean keyword. -/
structure MPDStatus where
  volume : Option Nat := none
  repeatFlag : Option Bool := none
  random : Option Bool := none
  single : Option Bool := none
  consume : Option Bool := none
  playlist : Option Nat := none
  playlistlength : Option Nat := none
  state : MPDState := .Stop
  song : Option Nat := none
  songid : Option Nat := none
  nextsong : Option Nat := none
  nextsongid : Option Nat := none
  elapsed : Option MDuration := none
  duration : Option MDuration := none
  xfade : Option Nat := none
  mixrampdb : Option Nat := none
  mixrampdelay : Option Nat := none

/-- Embeds struct Tag of tags.rs; the String value is kept as its UTF-8 bytes. -/
structure Tag where
  kind : TagType
  value : Bytes
deriving DecidableEq

/-- Display impl for Tag. -/
def Tag.render (t : Tag) : Bytes := t.kind.display ++ strBytes ": " ++ t.value ++ [10]

/-- Embeds struct Song. The PathBuf is kept as the bytes emitted verbatim in
the file: field; the chrono timestamp is kept as its already rendered RFC-3339
string (chrono is an external crate). -/
structure Song where
  path : Bytes
  last_modified : Option Bytes := none
  format : Option Bytes := none
  duration : Option Nat := none
  tags : List Tag := []
deriving DecidableEq

/-- Display impl for Song. -/
def Song.render (s : Song) : Bytes :=
  strBytes "file: " ++ s.path ++ [10] ++
  (match s.last_modified with
   | some lm => strBytes "Last-Modified: " ++ lm ++ [10]
   | none => []) ++
  (match s.format with
   | some f => strBytes "Format: " ++ f ++ [10]
   | none => []) ++
  (match s.duration with
   | some d => strBytes "Time: " ++ decBytes d ++ [10] ++
       strBytes "duration: " ++ decBytes d ++ [10]
   | none => []) ++
  (s.tags.map Tag.render).flatten

/-- Embeds enum LibraryEntry. -/
inductive LibraryEntry
  | Directory (path : Bytes) (last_modified : Option Bytes)
  | File (song : Song)
deriving DecidableEq

/-- Display impl for LibraryEntry. -/
def LibraryEntry.render : LibraryEntry → Bytes
  | .Directory path lm =>
    strBytes "directory: " ++ path ++ [10] ++
    (match lm with
     | some l => strBytes "Last-Modified: " ++ l ++ [10]
     | none => [])
  | .File song => song.render

/-- Embeds struct QueueEntry. -/
structure QueueEntry where
  song : Song
  id : Bytes
  position : Nat
deriving DecidableEq

/-- Display impl for QueueEntry. -/
def QueueEntry.render (q : QueueEntry) : Bytes :=
  q.song.render ++ strBytes "Pos: " ++ decBytes q.position ++ [10] ++
  strBytes "Id: " ++ q.id ++ [10]

/-- Embeds enum QueueSong. -/
inductive QueueSong
  | Id (id : Nat)
  | Pos (pos : Nat)
deriving DecidableEq

/-- Embeds enum CommandError; messages are byte strings. -/
inductive CommandError
  | Unknown (msg : Bytes)
  | InvalidArgument (msg : Bytes)
  | NoExist (msg : Bytes)
deriving DecidableEq

/-- Numeric MPD error code of a CommandError, as in CommandError::send. -/
def CommandError.code : CommandError → Nat
  | .InvalidArgument _ => 2
  | .Unknown _ => 5
  | .NoExist _ => 50

/-- Message payload of a CommandError. -/
def CommandError.msg : CommandError → Bytes
  | .Unknown m => m
  | .InvalidArgument m => m
  | .NoExist m => m

/-- The ACK line written by CommandError::send:
ACK [code@idx] then the braced name then the message. -/
def ackLine (code idx : Nat) (name msg : Bytes) : Bytes :=
  strBytes "ACK [" ++ decBytes code ++ [64] ++ decBytes idx ++ strBytes "] " ++
  [123] ++ name ++ [125] ++ [32] ++ msg ++ [10]

/-- Embeds enum ReplayGainMode. -/
inductive ReplayGainMode
  | Off | Track | Album | Auto
deriving DecidableEq

/-- Embeds enum TagTypesCommand. -/
inductive TagTypesCommand
  | All
  | Clear
  | Disable (tags : TagSet)
  | Enable (tags : TagSet)
  | List

/-- Parsed URL, modelled as its scheme and the segments of its file path.
The url crate is an external collaborator; parse_command only constructs
URLs through an abstract parser and passes them through. -/
structure MUrl where
  scheme : String
  path : List Bytes
deriving DecidableEq

/-- Embeds enum MPDSubCommand of mpd-server-protocol/src/lib.rs. A range is
an inclusive pair (start, end). -/
inductive MPDSubCommand
  | Add (url : MUrl)
  | AddId (url : MUrl) (pos : Option Nat)
  | Channels
  | Clear
  | Commands
  | CurrentSong
  | Decoders
  | Delete (range : Nat × Nat)
  | Find (filters : List (TagType × Bytes))
  | GetVol
  | Idle (subsystems : SubsystemSet)
  | Invalid (name : Bytes) (args : Bytes) (reason : CommandError)
  | List (tag : TagType) (filters : List (TagType × Bytes)) (groups : List TagType)
  | ListPartitions
  | ListPlaylist (name : Bytes)
  | ListPlaylistInfo (name : Bytes)
  | ListPlaylists
  | LsInfo (url : Option MUrl)
  | Next
  | NoIdle
  | NotCommands
  | Outputs
  | Pause (pause : Option Bool)
  | Ping
  | Play (songpos : Option Nat)
  | PlayId (songid : Option Nat)
  | PlaylistChanges (version : Nat) (range : Option (Nat × Nat))
  | PlaylistChangesPosId (version : Nat) (range : Option (Nat × Nat))
  | PlaylistId (id : Option Bytes)
  | PlaylistInfo (range : Option (Nat × Nat))
  | Previous
  | Random (state : Bool)
  | ReplayGainMode (mode : ReplayGainMode)
  | ReplayGainStatus
  | Rescan (uri : Option MUrl)
  | Search (filters : List (TagType × Bytes))
  | Seek (songpos : Nat) (time : MDuration)
  | SeekCurrent (time : MDuration)
  | SeekId (songid : Nat) (time : MDuration)
  | SetVol (level : Nat)
  | Status
  | Stats
  | Stop
  | Swap (pos1 pos2 : Nat)
  | SwapId (id1 id2 : Nat)
  | TagTypes (cmd : TagTypesCommand)
  | Update (uri : Option MUrl)
  | UrlHandlers

/-- Embeds MPDSubCommand::name. -/
def MPDSubCommand.name : MPDSubCommand → Bytes
  | .Add _ => strBytes "add"
  | .AddId _ _ => strBytes "addid"
  | .Channels => strBytes "channels"
  | .Clear => strBytes "clear"
  | .Commands => strBytes "commands"
  | .CurrentSong => strBytes "currentsong"
  | .Decoders => strBytes "decoders"
  | .Delete _ => strBytes "delete"
  | .Find _ => strBytes "find"
  | .GetVol => strBytes "getvol"
  | .Idle _ => strBytes "idle"
  | .Invalid n _ _ => n
  | .List _ _ _ => strBytes "list"
  | .ListPartitions => strBytes "listpartitions"
  | .ListPlaylist _ => strBytes "listplaylist"
  | .ListPlaylistInfo _ => strBytes "listplaylistinfo"
  | .ListPlaylists => strBytes "listplaylists"
  | .LsInfo _ => strBytes "lsinfo"
  | .Next => strBytes "next"
  | .NoIdle => strBytes "noidle"
  | .NotCommands => strBytes "notcommands"
  | .Outputs => strBytes "outputs"
  | .Pause _ => strBytes "pause"
  | .Ping => strBytes "ping"
  | .Play _ => strBytes "play"
  | .PlayId _ => strBytes "playid"
  | .PlaylistChanges _ _ => strBytes "plchanges"
  | .PlaylistChangesPosId _ _ => strBytes "plchangesposid"
  | .PlaylistId _ => strBytes "playlistid"
  | .PlaylistInfo _ => strBytes "playlistinfo"
  | .Previous => strBytes "previous"
  | .Random _ => strBytes "random"
  | .ReplayGainMode _ => strBytes "replay_gain_mode"
  | .ReplayGainStatus => strBytes "replay_gain_status"
  | .Rescan _ => strBytes "rescan"
  | .Search _ => strBytes "search"
  | .Seek _ _ => strBytes "seek"
  | .SeekCurrent _ => strBytes "seekcur"
  | .SeekId _ _ => strBytes "seekid"
  | .SetVol _ => strBytes "setvol"
  | .Status => strBytes "status"
  | .Stats => strBytes "stats"
  | .Stop => strBytes "stop"
  | .Swap _ _ => strBytes "swap"
  | .SwapId _ _ => strBytes "swapid"
  | .TagTypes _ => strBytes "tagtypes"
  | .Update _ => strBytes "update"
  | .UrlHandlers => strBytes "urlhandlers"

/-- Embeds enum MPDCommand. -/
inductive MPDCommand
  | ListBegin (ok : Bool) (commands : List MPDSubCommand)
  | ListEnd
  | Sub (cmd : MPDSubCommand)

/-- Filter term: struct TagFilter (tag, value). -/
abbrev TagFilter := TagType × Bytes

/-- Boolean printed through `as usize`, as in the status formatter. -/
def boolBit (b : Bool) : Bytes := if b then strBytes "1" else strBytes "0"

/-- Three-digit zero-padded decimal. -/
def pad3 (n : Nat) : Bytes :=
  if n < 10 then strBytes "00" ++ decBytes n
  else if n < 100 then strBytes "0" ++ decBytes n
  else decBytes n

/-- Rendering of as_secs_f32 with three fractional digits. Binary f32
formatting is approximated by truncating the nanoseconds to milliseconds;
this is exact for the millisecond-precision durations the backend produces. -/
def MDuration.render3 (d : MDuration) : Bytes :=
  decBytes d.secs ++ [46] ++ pad3 (d.nanos / 1000000)

/-- Display impl for MPDStatus (the status reply block). -/
def MPDStatus.render (s : MPDStatus) : Bytes :=
  strBytes "partition: default\n" ++
  (match s.volume with
   | some v => strBytes "volume: " ++ decBytes v ++ [10]
   | none => []) ++
  (match s.repeatFlag with
   | some b => strBytes "repeat: " ++ boolBit b ++ [10]
   | none => []) ++
  (match s.random with
   | some b => strBytes "random: " ++ boolBit b ++ [10]
   | none => []) ++
  (match s.single with
   | some b => strBytes "single: " ++ boolBit b ++ [10]
   | none => []) ++
  (match s.consume with
   | some b => strBytes "consume: " ++ boolBit b ++ [10]
   | none => []) ++
  (match s.playlist with
   | some v => strBytes "playlist: " ++ decBytes v ++ [10]
   | none => []) ++
  (match s.playlistlength with
   | some v => strBytes "playlistlength: " ++ decBytes v ++ [10]
   | none => []) ++
  strBytes "state: " ++ s.state.display ++ [10] ++
  (match s.song with
   | some v => strBytes "song: " ++ decBytes v ++ [10]
   | none => []) ++
  (match s.songid with
   | some v => strBytes "songid: " ++ decBytes v ++ [10]
   | none => []) ++
  (match s.nextsong with
   | some v => strBytes "nextsong: " ++ decBytes v ++ [10]
   | none => []) ++
  (match s.nextsongid with
   | some v => strBytes "nextsongid: " ++ decBytes v ++ [10]
   | none => []) ++
  (match s.elapsed, s.duration with
   | some e, some d => strBytes "time: " ++ decBytes e.secs ++ [58] ++ decBytes d.secs ++ [10]
   | _, _ => []) ++
  (match s.elapsed with
   | some e => strBytes "elapsed: " ++ e.render3 ++ [10]
   | none => []) ++
  (match s.duration with
   | some d => strBytes "duration: " ++ d.render3 ++ [10]
   | none => [])

/-- The fixed reply of the commands sub-command. -/
def commandsOutput : Bytes := strBytes
  "command: add\ncommand: addid\ncommand: addtagid\ncommand: albumart\ncommand: channels\ncommand: clear\ncommand: clearerror\ncommand: cleartagid\ncommand: close\ncommand: commands\ncommand: config\ncommand: consume\ncommand: count\ncommand: crossfade\ncommand: currentsong\ncommand: decoders\ncommand: delete\ncommand: deleteid\ncommand: delpartition\ncommand: disableoutput\ncommand: enableoutput\ncommand: find\ncommand: findadd\ncommand: getvol\ncommand: idle\ncommand: kill\ncommand: list\ncommand: listall\ncommand: listallinfo\ncommand: listfiles\ncommand: listmounts\ncommand: listpartitions\ncommand: listplaylist\ncommand: listplaylistinfo\ncommand: listplaylists\ncommand: load\ncommand: lsinfo\ncommand: mixrampdb\ncommand: mixrampdelay\ncommand: mount\ncommand: move\ncommand: moveid\ncommand: moveoutput\ncommand: newpartition\ncommand: next\ncommand: notcommands\ncommand: outputs\ncommand: outputset\ncommand: partition\ncommand: password\ncommand: pause\ncommand: ping\ncommand: play\ncommand: playid\ncommand: playlist\ncommand: playlistadd\ncommand: playlistclear\ncommand: playlistdelete\ncommand: playlistfind\ncommand: playlistid\ncommand: playlistinfo\ncommand: playlistmove\ncommand: playlistsearch\ncommand: plchanges\ncommand: plchangesposid\ncommand: previous\ncommand: prio\ncommand: prioid\ncommand: random\ncommand: rangeid\ncommand: readcomments\ncommand: readmessages\ncommand: readpicture\ncommand: rename\ncommand: repeat\ncommand: replay_gain_mode\ncommand: replay_gain_status\ncommand: rescan\ncommand: rm\ncommand: save\ncommand: search\ncommand: searchadd\ncommand: searchaddpl\ncommand: seek\ncommand: seekcur\ncommand: seekid\ncommand: sendmessage\ncommand: setvol\ncommand: shuffle\ncommand: single\ncommand: stats\ncommand: status\ncommand: stop\ncommand: subscribe\ncommand: swap\ncommand: swapid\ncommand: tagtypes\ncommand: toggleoutput\ncommand: unmount\ncommand: unsubscribe\ncommand: update\ncommand: urlhandlers\ncommand: volume\n"

/-- One backend handler call, recorded as an event so theorems can speak
about which trait methods a command invokes. -/
inductive HEvent
  | status
  | list_directory (url : Option MUrl)
  | queue_current
  | queue_list (range : Option (Nat × Nat))
  | queue_get (id : Bytes)
  | queue_add_file (url : MUrl) (pos : Option Nat)
  | queue_add (url : MUrl) (pos : Option Nat)
  | queue_swap (song1 song2 : QueueSong)
  | queue_delete (range : Nat × Nat)
  | queue_clear
  | previous
  | play (song : Option QueueSong)
  | next
  | stop
  | pause (pause : Option Bool)
  | seek (song : QueueSong) (time : MDuration)
  | seek_current (time : MDuration)
  | random (state : Bool)
  | volume_get
  | volume_set (level : Nat)
  | library_update (uri : Option MUrl) (rescan : Bool)
  | library_list (tag : TagType) (filters : List TagFilter) (groups : List TagType)
  | library_find (filters : List TagFilter) (sensitive : Bool)
  | idle (wanted : SubsystemSet)
  | tags_enable (tags : TagSet)
  | tags_disable (tags : TagSet)
  | tags_get

/-- The trait CommandHandler as a pure oracle: each method is a response
function; failures carry the message bytes of the boxed error. -/
structure Handler where
  status : MPDStatus
  list_directory : Option MUrl → Except Bytes (List LibraryEntry)
  queue_current : Option QueueEntry
  queue_list : Option (Nat × Nat) → List QueueEntry
  queue_get : Bytes → Option QueueEntry
  queue_add_file : MUrl → Option Nat → Except Bytes Nat
  queue_add : MUrl → Option Nat → Except Bytes (Option Nat)
  queue_swap : QueueSong → QueueSong → Except Bytes Unit
  queue_delete : Nat × Nat → Except Bytes Unit
  queue_clear : Except Bytes Unit
  seek : QueueSong → MDuration → Except Bytes Unit
  seek_current : MDuration → Except Bytes Unit
  random : Bool → Except Bytes Unit
  volume_get : Option Nat
  library_update : Option MUrl → Bool → Except Bytes Unit
  library_list : TagType → List TagFilter → List TagType → Except Bytes (List Tag)
  library_find : List TagFilter → Bool → Except Bytes (List Song)
  idle : SubsystemSet → Except Bytes SubsystemSet
  tags_enable : TagSet → Except Bytes Unit
  tags_disable : TagSet → Except Bytes Unit
  tags_get : Except Bytes TagSet

/-- Result of processing one sub-command: protocol success, a CommandError
(rendered as an ACK by the caller), a propagated transport error (the
question-mark operator on a handler call), or divergence (the idle loop when
the handler reports an empty change set). -/
inductive SubOutcome
  | ok
  | err (e : CommandError)
  | ioErr (msg : Bytes)
  | diverge

/-- Embeds fn lsinfo of mpd-server-protocol/src/lib.rs. -/
def lsinfoRun (h : Handler) (url : Option MUrl) : Bytes × List HEvent × SubOutcome :=
  match h.list_directory url with
  | .ok entries => ((entries.map LibraryEntry.render).flatten, [.list_directory url], .ok)
  | .error err => ([], [.list_directory url], .err (.NoExist err))

/-- Embeds fn currentsong. -/
def currentsongRun (h : Handler) : Bytes × List HEvent × SubOutcome :=
  match h.queue_current with
  | some q => (q.render, [.queue_current], .ok)
  | none => ([], [.queue_current], .ok)

/-- Embeds fn getvol. -/
def getvolRun (h : Handler) : Bytes × List HEvent × SubOutcome :=
  match h.volume_get with
  | some v => (strBytes "volume: " ++ decBytes v ++ [10], [.volume_get], .ok)
  | none => ([], [.volume_get], .ok)

/-- Embeds fn playlistid. -/
def playlistidRun (h : Handler) (id : Option Bytes) : Bytes × List HEvent × SubOutcome :=
  match id with
  | some i =>
    match h.queue_get i with
    | some item => (item.render, [.queue_get i], .ok)
    | none => ([], [.queue_get i], .ok)
  | none => (((h.queue_list none).map QueueEntry.render).flatten, [.queue_list none], .ok)

/-- Embeds fn playlistinfo. -/
def playlistinfoRun (h : Handler) (range : Option (Nat × Nat)) :
    Bytes × List HEvent × SubOutcome :=
  (((h.queue_list range).map QueueEntry.render).flatten, [.queue_list range], .ok)

/-- Embeds fn add. -/
def addRun (h : Handler) (url : MUrl) : Bytes × List HEvent × SubOutcome :=
  match h.queue_add url none with
  | .ok _ => ([], [.queue_add url none], .ok)
  | .error err => ([], [.queue_add url none], .err (.NoExist err))

/-- Embeds fn addid. -/
def addidRun (h : Handler) (url : MUrl) (pos : Option Nat) : Bytes × List HEvent × SubOutcome :=
  match h.queue_add_file url pos with
  | .ok id => (strBytes "Id: " ++ decBytes id ++ [10], [.queue_add_file url pos], .ok)
  | .error err => ([], [.queue_add_file url pos], .err (.NoExist err))

/-- Embeds fn list. -/
def listRun (h : Handler) (tag : TagType) (filters : List TagFilter) (groups : List TagType) :
    Bytes × List HEvent × SubOutcome :=
  match h.library_list tag filters groups with
  | .ok items => ((items.map Tag.render).flatten, [.library_list tag filters groups], .ok)
  | .error err => ([], [.library_list tag filters groups], .err (.Unknown err))

/-- Embeds fn find. -/
def findRun (h : Handler) (filters : List TagFilter) : Bytes × List HEvent × SubOutcome :=
  match h.library_find filters true with
  | .ok songs => ((songs.map Song.render).flatten, [.library_find filters true], .ok)
  | .error err => ([], [.library_find filters true], .err (.Unknown err))

/-- Embeds fn search. -/
def searchRun (h : Handler) (filters : List TagFilter) : Bytes × List HEvent × SubOutcome :=
  match h.library_find filters false with
  | .ok songs => ((songs.map Song.render).flatten, [.library_find filters false], .ok)
  | .error err => ([], [.library_find filters false], .err (.Unknown err))

/-- Embeds fn tagtypes. -/
def tagtypesRun (h : Handler) (cmd : TagTypesCommand) : Bytes × List HEvent × SubOutcome :=
  match cmd with
  | .All =>
    match h.tags_enable allTagSet with
    | .ok _ => ([], [.tags_enable allTagSet], .ok)
    | .error err => ([], [.tags_enable allTagSet], .err (.Unknown err))
  | .Clear =>
    match h.tags_disable allTagSet with
    | .ok _ => ([], [.tags_disable allTagSet], .ok)
    | .error err => ([], [.tags_disable allTagSet], .err (.Unknown err))
  | .Disable tags =>
    match h.tags_disable tags with
    | .ok _ => ([], [.tags_disable tags], .ok)
    | .error err => ([], [.tags_disable tags], .err (.Unknown err))
  | .Enable tags =>
    match h.tags_enable tags with
    | .ok _ => ([], [.tags_enable tags], .ok)
    | .error err => ([], [.tags_enable tags], .err (.Unknown err))
  | .List =>
    match h.tags_get with
    | .ok tags =>
      (((tagSetToList tags).map (fun t => strBytes "tagtype: " ++ t.display ++ [10])).flatten,
       [.tags_get], .ok)
    | .error err => ([], [.tags_get], .err (.Unknown err))

/-- Embeds MPDSubCommand::process. The tokio::select race between an incoming
noidle line and the handler inside the idle arm is concurrency outside the
embedding; the handler branch of the select is modelled, and an empty change
set (which makes the source loop again with the same oracle) is reported as
divergence. -/
def processSub (h : Handler) : MPDSubCommand → Bytes × List HEvent × SubOutcome
  | .Add url => addRun h url
  | .AddId url pos => addidRun h url pos
  | .Channels => ([], [], .ok)
  | .Clear =>
    match h.queue_clear with
    | .ok _ => ([], [.queue_clear], .ok)
    | .error e => ([], [.queue_clear], .ioErr e)
  | .Commands => (commandsOutput, [], .ok)
  | .CurrentSong => currentsongRun h
  | .Decoders => ([], [], .ok)
  | .Delete range =>
    match h.queue_delete range with
    | .ok _ => ([], [.queue_delete range], .ok)
    | .error e => ([], [.queue_delete range], .ioErr e)
  | .Find filters => findRun h filters
  | .GetVol => getvolRun h
  | .Idle subsystems =>
    match h.idle subsystems with
    | .ok set =>
      if subsystemSetIsEmpty set then ([], [.idle subsystems], .diverge)
      else
        (((subsystemSetToList set).map
            (fun ss => strBytes "changed: " ++ ss.display ++ [10])).flatten,
         [.idle subsystems], .ok)
    | .error e => ([], [.idle subsystems], .err (.Unknown e))
  | .Invalid _ _ reason => ([], [], .err reason)
  | .List tag filters groups => listRun h tag filters groups
  | .ListPartitions => (strBytes "partition: default\n", [], .ok)
  | .ListPlaylist _ => ([], [], .err (.NoExist (strBytes "playlist does not exist")))
  | .ListPlaylistInfo _ => ([], [], .err (.NoExist (strBytes "playlist does not exist")))
  | .ListPlaylists => ([], [], .ok)
  | .LsInfo path => lsinfoRun h path
  | .Next => ([], [.next], .ok)
  | .NoIdle => ([], [], .ok)
  | .NotCommands => ([], [], .ok)
  | .Outputs => ([], [], .ok)
  | .Pause pause => ([], [.pause pause], .ok)
  | .Ping => ([], [], .ok)
  | .Play songpos => ([], [.play (songpos.map QueueSong.Pos)], .ok)
  | .PlayId songid => ([], [.play (songid.map QueueSong.Id)], .ok)
  | .PlaylistChanges _ range => playlistinfoRun h range
  | .PlaylistChangesPosId _ range => playlistinfoRun h range
  | .PlaylistId id => playlistidRun h id
  | .PlaylistInfo range => playlistinfoRun h range
  | .Previous => ([], [.previous], .ok)
  | .Random state =>
    match h.random state with
    | .ok _ => ([], [.random state], .ok)
    | .error e => ([], [.random state], .ioErr e)
  | .ReplayGainMode mode =>
    if mode = .Off then ([], [], .ok)
    else ([], [], .err (.Unknown (strBytes "Unsupported replay gain mode")))
  | .ReplayGainStatus => (strBytes "replay_gain_mode: off\n", [], .ok)
  | .Rescan uri =>
    match h.library_update uri true with
    | .ok _ => ([], [.library_update uri true], .ok)
    | .error e => ([], [.library_update uri true], .ioErr e)
  | .Search filters => searchRun h filters
  | .Seek songpos time =>
    match h.seek (.Pos songpos) time with
    | .ok _ => ([], [.seek (.Pos songpos) time], .ok)
    | .error e => ([], [.seek (.Pos songpos) time], .ioErr e)
  | .SeekCurrent time =>
    match h.seek_current time with
    | .ok _ => ([], [.seek_current time], .ok)
    | .error e => ([], [.seek_current time], .ioErr e)
  | .SeekId songid time =>
    match h.seek (.Id songid) time with
    | .ok _ => ([], [.seek (.Id songid) time], .ok)
    | .error e => ([], [.seek (.Id songid) time], .ioErr e)
  | .SetVol level => ([], [.volume_set level], .ok)
  | .Status => (h.status.render, [.status], .ok)
  | .Stats => ([], [], .ok)
  | .Stop => ([], [.stop], .ok)
  | .Swap pos1 pos2 =>
    match h.queue_swap (.Pos pos1) (.Pos pos2) with
    | .ok _ => ([], [.queue_swap (.Pos pos1) (.Pos pos2)], .ok)
    | .error e => ([], [.queue_swap (.Pos pos1) (.Pos pos2)], .ioErr e)
  | .SwapId id1 id2 =>
    match h.queue_swap (.Id id1) (.Id id2) with
    | .ok _ => ([], [.queue_swap (.Id id1) (.Id id2)], .ok)
    | .error e => ([], [.queue_swap (.Id id1) (.Id id2)], .ioErr e)
  | .TagTypes cmd => tagtypesRun h cmd
  | .Update uri =>
    match h.library_update uri false with
    | .ok _ => ([], [.library_update uri false], .ok)
    | .error e => ([], [.library_update uri false], .ioErr e)
  | .UrlHandlers => ([], [], .ok)

/-- Outcome of processing a full command for the session loop. -/
inductive ProcOutcome
  | done
  | ioErrored (msg : Bytes)
  | panicked
  | hung

/-- Test used by MPDCommand::process before writing the OK terminator
(equality with MPDSubCommand::NoIdle; NoIdle carries no payload). -/
def isNoIdle : MPDSubCommand → Bool
  | .NoIdle => true
  | _ => false

/-- The command-list loop of MPDCommand::process: i is the enumerate index. -/
def processListGo (h : Handler) (ok : Bool) : List MPDSubCommand → Nat →
    Bytes × List HEvent × ProcOutcome
  | [], _ => (strBytes "OK\n", [], .done)
  | c :: rest, i =>
    let r := processSub h c
    match r.2.2 with
    | .ok =>
      let tail := processListGo h ok rest (i + 1)
      (r.1 ++ (if ok then strBytes "list_OK\n" else []) ++ tail.1, r.2.1 ++ tail.2.1, tail.2.2)
    | .err e => (r.1 ++ ackLine e.code i c.name e.msg, r.2.1, .done)
    | .ioErr m => (r.1, r.2.1, .ioErrored m)
    | .diverge => (r.1, r.2.1, .hung)

/-- Embeds MPDCommand::process: the emitted bytes, the handler calls made and
the outcome. Processing ListEnd hits the panic arm of the source. -/
def MPDCommand.processModel (h : Handler) : MPDCommand → Bytes × List HEvent × ProcOutcome
  | .ListBegin ok cmds => processListGo h ok cmds 0
  | .Sub c =>
    let r := processSub h c
    match r.2.2 with
    | .ok => (r.1 ++ (if isNoIdle c then [] else strBytes "OK\n"), r.2.1, .done)
    | .err e => (r.1 ++ ackLine e.code 0 c.name e.msg, r.2.1, .done)
    | .ioErr m => (r.1, r.2.1, .ioErrored m)
    | .diverge => (r.1, r.2.1, .hung)
  | .ListEnd => ([], [], .panicked)

/-- ASCII lowercase of one byte (make_ascii_lowercase). -/
def toLowerByte (b : Nat) : Nat := if 65 ≤ b ∧ b ≤ 90 then b + 32 else b

/-- ASCII lowercase of a byte string. -/
def toLowerBytes (bs : Bytes) : Bytes := bs.map toLowerByte

/-- Debug formatting of a byte string name: surrounding double quotes. Byte
escaping inside the name is not modelled; all command names are plain ASCII. -/
def quoteDbg (name : Bytes) : Bytes := 34 :: name ++ [34]

/-- The wrong-number-of-arguments message of the next_arg macro. -/
def wrongNumMsg (name : Bytes) : Bytes :=
  strBytes "wrong number of arguments for " ++ quoteDbg name

/-- The Invalid command produced when next_arg finds no remaining argument. -/
def invalidWrongNum (name : Bytes) : MPDCommand :=
  .Sub (.Invalid name [] (.InvalidArgument (wrongNumMsg name)))

/-- The next_arg macro instantiated at BString: the error side is the Invalid
command returned early from parse_command. -/
def nextArgBString (name args : Bytes) : Except MPDCommand (Bytes × Bytes) :=
  if args = [] then .error (invalidWrongNum name)
  else
    match bstringFromBytes args with
    | .ok (arg, rest) => .ok (arg, skip_whitespace rest)
    | .error err => .error (.Sub (.Invalid name [] (.InvalidArgument err.message)))

/-- The next_arg macro instantiated at usize. -/
def nextArgUsize (name args : Bytes) : Except MPDCommand (Nat × Bytes) :=
  if args = [] then .error (invalidWrongNum name)
  else
    match usizeFromBytes args with
    | .ok (arg, rest) => .ok (arg, skip_whitespace rest)
    | .error err => .error (.Sub (.Invalid name [] (.InvalidArgument err.message)))

lemma unescapeArgGo_consume :
    ∀ (n : Nat) (l : Bytes), l.length ≤ n → ∀ (delim : Nat) (out o r : Bytes),
    unescapeArgGo delim out l = .ok (o, r) → r.length < l.length := by
  intro n
  induction n with
  | zero =>
    intro l hl delim out o r h
    match l with
    | [] => simp [unescapeArgGo] at h
    | c :: rest => simp at hl
  | succ n ih =>
    intro l hl delim out o r h
    match l with
    | [] => simp [unescapeArgGo] at h
    | c :: rest =>
      by_cases h92 : c = 92
      · subst h92
        match rest with
        | [] => simp [unescapeArgGo] at h
        | c2 :: rest2 =>
          rw [unescapeArgGo] at h
          simp only [if_pos rfl] at h
          have hr := ih rest2 (by simp at hl; omega) delim (out ++ [c2]) o r h
          simp at hr ⊢
          omega
      · by_cases hd : c = delim
        · rw [unescapeArgGo.eq_def] at h
          simp only [if_neg h92, if_pos hd] at h
          simp only [Except.ok.injEq, Prod.mk.injEq] at h
          rw [← h.2]
          simp
        · rw [unescapeArgGo.eq_def] at h
          simp only [if_neg h92, if_neg hd] at h
          have hr := ih rest (by simp at hl; omega) delim (out ++ [c]) o r h
          simp at hr ⊢
          omega

lemma bstring_consume (args arg rest : Bytes)
    (h : bstringFromBytes args = .ok (arg, rest)) : rest.length < args.length := by
  match args with
  | [] => simp [bstringFromBytes] at h
  | first :: rest0 =>
    by_cases hq : first = 34 ∨ first = 39
    · simp only [bstringFromBytes, if_pos hq] at h
      have := unescapeArgGo_consume rest0.length rest0 (Nat.le_refl _) first [] arg rest h
      simp
      omega
    · by_cases hsp : first = 32
      · simp [bstringFromBytes, hq, hsp] at h
      · simp only [bstringFromBytes, if_neg hq, if_neg hsp] at h
        cases hidx : (first :: rest0).findIdx? (fun b => b = 32) with
        | some pos =>
          rw [hidx] at h
          simp only [Except.ok.injEq, Prod.mk.injEq] at h
          rw [← h.2]
          simp [List.length_drop]
          omega
        | none =>
          rw [hidx] at h
          simp only [Except.ok.injEq, Prod.mk.injEq] at h
          rw [← h.2]
          simp

lemma skip_whitespace_le (l : Bytes) : (skip_whitespace l).length ≤ l.length :=
  (List.dropWhile_suffix (fun b => decide (b = 32))).sublist.length_le

lemma nextArgBString_consume (name args a r : Bytes)
    (h : nextArgBString name args = .ok (a, r)) : r.length < args.length := by
  unfold nextArgBString at h
  by_cases he : args = []
  · simp [he] at h
  · rw [if_neg he] at h
    cases hb : bstringFromBytes args with
    | ok v =>
      match v with
      | (arg, rest) =>
        rw [hb] at h
        simp only [Except.ok.injEq, Prod.mk.injEq] at h
        have h1 := bstring_consume args arg rest hb
        have h2 := skip_whitespace_le rest
        rw [← h.2]
        omega
    | error e => rw [hb] at h; simp at h

lemma mem_allTagTypes (t : TagType) : t ∈ allTagTypes := by
  cases t <;> simp [allTagTypes]

lemma tagSetIsEmpty_insert (s : TagSet) (t : TagType) :
    tagSetIsEmpty (insertTag s t) = false := by
  unfold tagSetIsEmpty
  rw [List.all_eq_false]
  exact ⟨t, mem_allTagTypes t, by simp [insertTag]⟩

/-- The filter loop of the find and search branches of parse_command: reads
TAG VALUE pairs, stopping (without consuming) at the keywords sort and
window; an unknown tag name is an early Invalid return. -/
def findFiltersLoop (name : Bytes) (args : Bytes) (filters : List TagFilter) :
    Except MPDCommand (List TagFilter × Bytes) :=
  if he : args = [] then .ok (filters, args)
  else
    match h1 : nextArgBString name args with
    | .error c => .error c
    | .ok (arg0, rest) =>
      let arg := toLowerBytes arg0
      if arg = strBytes "sort" ∨ arg = strBytes "window" then .ok (filters, args)
      else
        match TagType.fromBytes arg with
        | none =>
          .error (.Sub (.Invalid name rest
            (.InvalidArgument (strBytes "Unknown filter type: " ++ arg))))
        | some tag =>
          match h2 : nextArgBString name rest with
          | .error c => .error c
          | .ok (value, rest2) => findFiltersLoop name rest2 (filters ++ [(tag, value)])
termination_by args.length
decreasing_by
  have l1 := nextArgBString_consume name args arg0 rest h1
  have l2 := nextArgBString_consume name rest value rest2 h2
  omega

/-- The subsystem loop of the idle branch of parse_command. -/
def idleLoop (name : Bytes) (args : Bytes) (set : SubsystemSet) :
    Except MPDCommand (SubsystemSet × Bytes) :=
  if he : args = [] then .ok (set, args)
  else
    match h1 : nextArgBString name args with
    | .error c => .error c
    | .ok (arg0, rest) =>
      let arg := toLowerBytes arg0
      match MPDSubsystem.fromBytes arg with
      | some subsystem => idleLoop name rest (insertSubsystem set subsystem)
      | none =>
        .error (.Sub (.Invalid name rest
          (.Unknown (strBytes "Unrecognized idle event: " ++ arg))))
termination_by args.length
decreasing_by
  have l1 := nextArgBString_consume name args arg0 rest h1
  omega

/-- The filter loop of the list branch of parse_command, with the special
case turning a single bare value into an artist filter when the listed tag
is Album. -/
def listFiltersLoop (name : Bytes) (tag : TagType) (args : Bytes)
    (filters : List TagFilter) : Except MPDCommand (List TagFilter × Bytes) :=
  if he : args = [] then .ok (filters, args)
  else
    match h1 : nextArgBString name args with
    | .error c => .error c
    | .ok (arg, rest) =>
      let lowered := toLowerBytes arg
      if lowered = strBytes "group" then .ok (filters, args)
      else
        match TagType.fromBytes lowered with
        | none =>
          if filters ≠ [] ∨ rest ≠ [] then
            .error (.Sub (.Invalid name rest
              (.InvalidArgument (strBytes "Unknown filter type: " ++ arg))))
          else if tag ≠ TagType.Album then
            .error (.Sub (.Invalid name rest
              (.InvalidArgument (strBytes "should be \"Album\" for 3 arguments"))))
          else listFiltersLoop name tag rest (filters ++ [(TagType.Artist, arg)])
        | some filter_tag =>
          match h2 : nextArgBString name rest with
          | .error c => .error c
          | .ok (value, rest2) => listFiltersLoop name tag rest2 (filters ++ [(filter_tag, value)])
termination_by args.length
decreasing_by
  · have l1 := nextArgBString_consume name args arg rest h1
    omega
  · have l1 := nextArgBString_consume name args arg rest h1
    have l2 := nextArgBString_consume name rest value rest2 h2
    omega

/-- The grouping loop of the list branch of parse_command. -/
def listGroupsLoop (name : Bytes) (args : Bytes) (groups : List TagType) :
    Except MPDCommand (List TagType × Bytes) :=
  if he : args = [] then .ok (groups, args)
  else
    match h1 : nextArgBString name args with
    | .error c => .error c
    | .ok (arg0, rest) =>
      let arg := toLowerBytes arg0
      if arg ≠ strBytes "group" then
        .error (.Sub (.Invalid name rest
          (.InvalidArgument (strBytes "Unknown filter type: " ++ arg))))
      else
        match h2 : nextArgBString name rest with
        | .error c => .error c
        | .ok (arg2, rest2) =>
          let arg2l := toLowerBytes arg2
          match TagType.fromBytes arg2l with
          | none =>
            .error (.Sub (.Invalid name rest2
              (.InvalidArgument (strBytes "Unknown tag type: " ++ arg2l))))
          | some tag => listGroupsLoop name rest2 (groups ++ [tag])
termination_by args.length
decreasing_by
  have l1 := nextArgBString_consume name args arg0 rest h1
  have l2 := nextArgBString_consume name rest arg2 rest2 h2
  omega

/-- The tag list loop of the tagtypes disable and enable branches: runs while
the set is still empty or arguments remain, so a missing first tag becomes a
wrong-number-of-arguments error. -/
def tagsLoop (name : Bytes) (args : Bytes) (tags : TagSet) :
    Except MPDCommand (TagSet × Bytes) :=
  if tagSetIsEmpty tags || !(args.isEmpty) then
    match h1 : nextArgBString name args with
    | .error c => .error c
    | .ok (arg0, rest) =>
      let arg := toLowerBytes arg0
      match TagType.fromBytes arg with
      | none =>
        .error (.Sub (.Invalid name rest
          (.InvalidArgument (strBytes "Unknown tag type"))))
      | some tag => tagsLoop name rest (insertTag tags tag)
  else .ok (tags, args)
termination_by args.length + (if tagSetIsEmpty tags then 1 else 0)
decreasing_by
  have l1 := nextArgBString_consume name args arg0 rest h1
  rw [tagSetIsEmpty_insert]
  simp only [if_neg Bool.false_ne_true]
  by_cases hb : tagSetIsEmpty tags = true
  · simp [hb]
    omega
  · simp [hb]
    omega

/-- How one branch of parse_command ends: a panic (the unwrap calls on range
parses), an early return (the next_arg macro and explicit return statements),
or a value that still passes through the trailing-argument check with the
final state of args. -/
inductive ParseOut
  | panicked
  | early (c : MPDCommand)
  | value (c : MPDCommand) (args : Bytes)

/-- The body of fn parse_command: the if-chain over the command name. The
url crate is an external collaborator, abstracted as the parser up resolving
an input byte string against the base file URL. -/
def parseCommandBody (up : Bytes → Option MUrl) (name : Bytes) (args : Bytes) : ParseOut :=
  if name = strBytes "add" then
    match nextArgBString name args with
    | .error c => .early c
    | .ok (input, rest) =>
      match up input with
      | some url => .value (.Sub (.Add url)) rest
      | none => .value (.Sub (.Invalid name rest (.Unknown (strBytes "Malformed URI")))) rest
  else if name = strBytes "addid" then
    match nextArgBString name args with
    | .error c => .early c
    | .ok (input, rest) =>
      if rest = [] then
        match up input with
        | some url => .value (.Sub (.AddId url none)) rest
        | none => .value (.Sub (.Invalid name rest (.Unknown (strBytes "Malformed URI")))) rest
      else
        match nextArgUsize name rest with
        | .error c => .early c
        | .ok (pos, rest2) =>
          match up input with
          | some url => .value (.Sub (.AddId url (some pos))) rest2
          | none =>
            .value (.Sub (.Invalid name rest2 (.Unknown (strBytes "Malformed URI")))) rest2
  else if name = strBytes "channels" then .value (.Sub .Channels) args
  else if name = strBytes "clear" then .value (.Sub .Clear) args
  else if name = strBytes "command_list_begin" then .value (.ListBegin false []) args
  else if name = strBytes "command_list_ok_begin" then .value (.ListBegin true []) args
  else if name = strBytes "command_list_end" then .value .ListEnd args
  else if name = strBytes "commands" then .value (.Sub .Commands) args
  else if name = strBytes "currentsong" then .value (.Sub .CurrentSong) args
  else if name = strBytes "decoders" then .value (.Sub .Decoders) args
  else if name = strBytes "delete" then
    match nextArgBString name args with
    | .error c => .early c
    | .ok (arg, rest) =>
      match rangeFromBytes arg with
      | .ok (range, _) => .value (.Sub (.Delete range)) rest
      | .error _ => .panicked
  else if name = strBytes "find" then
    match findFiltersLoop name args [] with
    | .error c => .early c
    | .ok (filters, argsF) => .value (.Sub (.Find filters)) argsF
  else if name = strBytes "idle" then
    match idleLoop name args emptySubsystemSet with
    | .error c => .early c
    | .ok (set, argsF) =>
      .value (.Sub (.Idle (if subsystemSetIsEmpty set then allSubsystemSet else set))) argsF
  else if name = strBytes "list" then
    match nextArgBString name args with
    | .error c => .early c
    | .ok (arg0, rest) =>
      let arg := toLowerBytes arg0
      match TagType.fromBytes arg with
      | none =>
        .early (.Sub (.Invalid name rest
          (.InvalidArgument (strBytes "Unknown tag type: " ++ arg))))
      | some tag =>
        match listFiltersLoop name tag rest [] with
        | .error c => .early c
        | .ok (filters, rest2) =>
          match listGroupsLoop name rest2 [] with
          | .error c => .early c
          | .ok (groups, rest3) => .value (.Sub (.List tag filters groups)) rest3
  else if name = strBytes "listpartitions" then .value (.Sub .ListPartitions) args
  else if name = strBytes "listplaylist" then
    match nextArgBString name args with
    | .error c => .early c
    | .ok (playlist, rest) => .value (.Sub (.ListPlaylist playlist)) rest
  else if name = strBytes "listplaylistinfo" then
    match nextArgBString name args with
    | .error c => .early c
    | .ok (playlist, rest) => .value (.Sub (.ListPlaylistInfo playlist)) rest
  else if name = strBytes "listplaylists" then .value (.Sub .ListPlaylists) args
  else if name = strBytes "lsinfo" then
    if args = [] then .value (.Sub (.LsInfo none)) args
    else
      match nextArgBString name args with
      | .error c => .early c
      | .ok (input, rest) =>
        match up input with
        | some url => .value (.Sub (.LsInfo (some url))) rest
        | none => .value (.Sub (.Invalid name rest (.Unknown (strBytes "Malformed URI")))) rest
  else if name = strBytes "next" then .value (.Sub .Next) args
  else if name = strBytes "noidle" then .value (.Sub .NoIdle) args
  else if name = strBytes "notcommands" then .value (.Sub .NotCommands) args
  else if name = strBytes "outputs" then .value (.Sub .Outputs) args
  else if name = strBytes "ping" then .value (.Sub .Ping) args
  else if name = strBytes "pause" then
    if args = [] then .value (.Sub (.Pause none)) args
    else
      match nextArgUsize name args with
      | .error c => .early c
      | .ok (arg, rest) =>
        if arg = 0 then .value (.Sub (.Pause (some false))) rest
        else if arg = 1 then .value (.Sub (.Pause (some true))) rest
        else
          .value (.Sub (.Invalid name rest
            (.Unknown (strBytes "Boolean (0/1) expected: " ++ decBytes arg)))) rest
  else if name = strBytes "play" then
    if args = [] then .value (.Sub (.Play none)) args
    else
      match nextArgUsize name args with
      | .error c => .early c
      | .ok (pos, rest) => .value (.Sub (.Play (some pos))) rest
  else if name = strBytes "playid" then
    if args = [] then .value (.Sub (.PlayId none)) args
    else
      match nextArgUsize name args with
      | .error c => .early c
      | .ok (id, rest) => .value (.Sub (.PlayId (some id))) rest
  else if name = strBytes "playlistid" then
    if args = [] then .value (.Sub (.PlaylistId none)) args
    else
      match nextArgBString name args with
      | .error c => .early c
      | .ok (arg, rest) => .value (.Sub (.PlaylistId (some arg))) rest
  else if name = strBytes "playlistinfo" then
    if args = [] then .value (.Sub (.PlaylistInfo none)) args
    else
      match nextArgBString name args with
      | .error c => .early c
      | .ok (arg, rest) =>
        match rangeFromBytes arg with
        | .ok (range, _) => .value (.Sub (.PlaylistInfo (some range))) rest
        | .error _ => .panicked
  else if name = strBytes "plchanges" then
    match nextArgUsize name args with
    | .error c => .early c
    | .ok (version, rest) =>
      if rest = [] then .value (.Sub (.PlaylistChanges version none)) rest
      else
        match bstringFromBytes rest with
        | .error _ => .panicked
        | .ok (arg, _) =>
          match rangeFromBytes arg with
          | .error _ => .panicked
          | .ok (range, _) => .value (.Sub (.PlaylistChanges version (some range))) rest
  else if name = strBytes "plchangesposid" then
    match nextArgUsize name args with
    | .error c => .early c
    | .ok (version, rest) =>
      if rest = [] then .value (.Sub (.PlaylistChangesPosId version none)) rest
      else
        match bstringFromBytes rest with
        | .error _ => .panicked
        | .ok (arg, _) =>
          match rangeFromBytes arg with
          | .error _ => .panicked
          | .ok (range, _) => .value (.Sub (.PlaylistChangesPosId version (some range))) rest
  else if name = strBytes "previous" then .value (.Sub .Previous) args
  else if name = strBytes "random" then
    match nextArgUsize name args with
    | .error c => .early c
    | .ok (arg, rest) =>
      if arg = 0 then .value (.Sub (.Random false)) rest
      else if arg = 1 then .value (.Sub (.Random true)) rest
      else
        .value (.Sub (.Invalid name rest
          (.Unknown (strBytes "Boolean (0/1) expected: " ++ decBytes arg)))) rest
  else if name = strBytes "replay_gain_mode" then
    match nextArgBString name args with
    | .error c => .early c
    | .ok (mode, rest) =>
      if mode = strBytes "off" then .value (.Sub (.ReplayGainMode .Off)) rest
      else if mode = strBytes "track" then .value (.Sub (.ReplayGainMode .Track)) rest
      else if mode = strBytes "album" then .value (.Sub (.ReplayGainMode .Album)) rest
      else if mode = strBytes "auto" then .value (.Sub (.ReplayGainMode .Auto)) rest
      else
        .early (.Sub (.Invalid name rest
          (.InvalidArgument (strBytes "Unrecognized replay gain mode"))))
  else if name = strBytes "replay_gain_status" then .value (.Sub .ReplayGainStatus) args
  else if name = strBytes "rescan" then
    if args = [] then .value (.Sub (.Rescan none)) args
    else
      match nextArgBString name args with
      | .error c => .early c
      | .ok (input, rest) =>
        match up input with
        | some url => .value (.Sub (.Rescan (some url))) rest
        | none => .value (.Sub (.Invalid name rest (.Unknown (strBytes "Malformed URI")))) rest
  else if name = strBytes "search" then
    match findFiltersLoop name args [] with
    | .error c => .early c
    | .ok (filters, argsF) => .value (.Sub (.Search filters)) argsF
  else if name = strBytes "seek" then
    match nextArgUsize name args with
    | .error c => .early c
    | .ok (songpos, rest) =>
      match nextArgUsize name rest with
      | .error c => .early c
      | .ok (time, rest2) =>
        .value (.Sub (.Seek songpos (MDuration.fromSecs time))) rest2
  else if name = strBytes "seekcur" then
    match nextArgUsize name args with
    | .error c => .early c
    | .ok (time, rest) => .value (.Sub (.SeekCurrent (MDuration.fromSecs time))) rest
  else if name = strBytes "seekid" then
    match nextArgUsize name args with
    | .error c => .early c
    | .ok (songid, rest) =>
      match nextArgUsize name rest with
      | .error c => .early c
      | .ok (time, rest2) =>
        .value (.Sub (.SeekId songid (MDuration.fromSecs time))) rest2
  else if name = strBytes "setvol" then
    match nextArgUsize name args with
    | .error c => .early c
    | .ok (arg, rest) => .value (.Sub (.SetVol arg)) rest
  else if name = strBytes "status" then .value (.Sub .Status) args
  else if name = strBytes "stats" then .value (.Sub .Stats) args
  else if name = strBytes "stop" then .value (.Sub .Stop) args
  else if name = strBytes "swap" then
    match nextArgUsize name args with
    | .error c => .early c
    | .ok (pos1, rest) =>
      match nextArgUsize name rest with
      | .error c => .early c
      | .ok (pos2, rest2) => .value (.Sub (.Swap pos1 pos2)) rest2
  else if name = strBytes "swapid" then
    match nextArgUsize name args with
    | .error c => .early c
    | .ok (id1, rest) =>
      match nextArgUsize name rest with
      | .error c => .early c
      | .ok (id2, rest2) => .value (.Sub (.SwapId id1 id2)) rest2
  else if name = strBytes "tagtypes" then
    if args = [] then .value (.Sub (.TagTypes .List)) args
    else
      match nextArgBString name args with
      | .error c => .early c
      | .ok (cmd, rest) =>
        if cmd = strBytes "all" then .value (.Sub (.TagTypes .All)) rest
        else if cmd = strBytes "clear" then .value (.Sub (.TagTypes .Clear)) rest
        else if cmd = strBytes "disable" then
          match tagsLoop name rest emptyTagSet with
          | .error c => .early c
          | .ok (tags, rest2) => .value (.Sub (.TagTypes (.Disable tags))) rest2
        else if cmd = strBytes "enable" then
          match tagsLoop name rest emptyTagSet with
          | .error c => .early c
          | .ok (tags, rest2) => .value (.Sub (.TagTypes (.Enable tags))) rest2
        else
          .value (.Sub (.Invalid name rest
            (.InvalidArgument (strBytes "Unknown sub command")))) rest
  else if name = strBytes "update" then
    if args = [] then .value (.Sub (.Update none)) args
    else
      match nextArgBString name args with
      | .error c => .early c
      | .ok (input, rest) =>
        match up input with
        | some url => .value (.Sub (.Update (some url))) rest
        | none => .value (.Sub (.Invalid name rest (.Unknown (strBytes "Malformed URI")))) rest
  else if name = strBytes "urlhandlers" then .value (.Sub .UrlHandlers) args
  else
    .early (.Sub (.Invalid [] args (.Unknown (strBytes "unknown command " ++ quoteDbg name))))

/-- Embeds fn parse_command: skips leading whitespace, runs the branch body,
and applies the trailing-argument check to fall-through values. Returns none
when the source would panic (the unwrap calls on range parses). -/
def parse_command (up : Bytes → Option MUrl) (name args0 : Bytes) : Option MPDCommand :=
  match parseCommandBody up name (skip_whitespace args0) with
  | .panicked => none
  | .early c => some c
  | .value c argsF =>
    some (if argsF = [] then c
          else .Sub (.Invalid name argsF (.InvalidArgument (wrongNumMsg name))))

/-- Result of fn parse_command_line on a byte stream: a parsed command (none
for end of file or a blank command name), an IO error (line without newline at
end of stream), or a panic propagated from parse_command. -/
inductive LineResult
  | cmd (c : Option MPDCommand)
  | ioError (msg : Bytes)
  | panicked

/-- Embeds fn parse_command_line over a stream modelled as the bytes still
unread; returns the result and the remaining stream. read_until consumes up
to and including the first newline. -/
def parse_command_line (up : Bytes → Option MUrl) (stream : Bytes) : LineResult × Bytes :=
  match stream.findIdx? (fun b => b = 10) with
  | some i =>
    let buf := (stream.take (i + 1)).dropLast
    let rest := stream.drop (i + 1)
    let nm := match buf.findIdx? (fun b => b = 32) with
      | some pos => buf.take pos
      | none => buf
    let args := match buf.findIdx? (fun b => b = 32) with
      | some pos => buf.drop (pos + 1)
      | none => ([] : Bytes)
    if nm = [] then (.cmd none, rest)
    else
      match parse_command up nm args with
      | some c => (.cmd (some c), rest)
      | none => (.panicked, rest)
  | none =>
    if stream = [] then (.cmd none, [])
    else (.ioError (strBytes "failed to read line from stream"), [])

lemma parse_command_line_consume (up : Bytes → Option MUrl) (stream : Bytes)
    (h : stream ≠ []) : (parse_command_line up stream).2.length < stream.length := by
  have hlen : 0 < stream.length := List.length_pos.mpr h
  unfold parse_command_line
  cases hidx : stream.findIdx? (fun b => b = 10) with
  | some i =>
    have hd : (stream.drop (i + 1)).length < stream.length := by
      rw [List.length_drop]
      omega
    simp only []
    split
    · exact hd
    · split
      · exact hd
      · exact hd
  | none =>
    rw [if_neg h]
    simpa using hlen

/-- Result of MPDCommand::parse: a command (or none at end of file), an IO
error, a panic, or the infinite loop the source enters when the stream ends
inside an unterminated command list. -/
inductive ParseResult
  | cmd (c : Option MPDCommand)
  | ioError (msg : Bytes)
  | panicked
  | hang

/-- Outcome of the command-list collection loop inside MPDCommand::parse. -/
inductive ListLoopOut
  | done (cmds : List MPDSubCommand) (rest : Bytes)
  | ioError (msg : Bytes) (rest : Bytes)
  | panicked (rest : Bytes)
  | hang

/-- The loop of MPDCommand::parse collecting sub-commands until
command_list_end: a nested list begin is pushed as an Invalid unknown-command
sub-command, a none line (blank name) is skipped, and end of stream makes the
source loop forever (hang). -/
def parseListLoop (up : Bytes → Option MUrl) (stream : Bytes) (acc : List MPDSubCommand) :
    ListLoopOut :=
  if hs : stream = [] then .hang
  else
    match h1 : parse_command_line up stream with
    | (.ioError e, rest) => .ioError e rest
    | (.panicked, rest) => .panicked rest
    | (.cmd none, rest) => parseListLoop up rest acc
    | (.cmd (some (.ListBegin ok2 _)), rest) =>
      parseListLoop up rest (acc ++ [.Invalid [] []
        (.Unknown (strBytes "unknown command " ++
          quoteDbg (if ok2 then strBytes "command_list_ok_begin"
                    else strBytes "command_list_begin")))])
    | (.cmd (some .ListEnd), rest) => .done acc rest
    | (.cmd (some (.Sub c)), rest) => parseListLoop up rest (acc ++ [c])
termination_by stream.length
decreasing_by
  · have hc := parse_command_line_consume up stream hs
    rw [h1] at hc
    exact hc
  · have hc := parse_command_line_consume up stream hs
    rw [h1] at hc
    exact hc
  · have hc := parse_command_line_consume up stream hs
    rw [h1] at hc
    exact hc

/-- Embeds MPDCommand::parse: reads one command, collecting the sub-commands
of a command list when the first line opened one. -/
def MPDCommand.parseModel (up : Bytes → Option MUrl) (stream : Bytes) : ParseResult × Bytes :=
  match parse_command_line up stream with
  | (.ioError e, rest) => (.ioError e, rest)
  | (.panicked, rest) => (.panicked, rest)
  | (.cmd none, rest) => (.cmd none, rest)
  | (.cmd (some (.ListBegin ok cmds0)), rest) =>
    match parseListLoop up rest cmds0 with
    | .done cmds rest2 => (.cmd (some (.ListBegin ok cmds)), rest2)
    | .ioError e rest2 => (.ioError e, rest2)
    | .panicked rest2 => (.panicked, rest2)
    | .hang => (.hang, [])
  | (.cmd (some c), rest) => (.cmd (some c), rest)

/-- How one Server::poll call ends for the session loop of main: again means
Ok(true) (keep looping), stopClean means Ok(false) (client exited; the loop
returns), errored is the transport-error return, and panicked and hung record
a panic or divergence inside processing. -/
inductive PollOutcome
  | again
  | stopClean
  | errored (msg : Bytes)
  | panicked
  | hung

/-- Embeds Server::poll: parse one command from the stream, process it, and
report the written reply bytes, the outcome and the remaining stream. -/
def Server.pollModel (up : Bytes → Option MUrl) (h : Handler) (stream : Bytes) :
    Bytes × PollOutcome × Bytes :=
  match MPDCommand.parseModel up stream with
  | (.cmd (some c), rest) =>
    match c.processModel h with
    | (out, _, .done) => (out, .again, rest)
    | (out, _, .ioErrored m) => (out, .errored m, rest)
    | (out, _, .panicked) => (out, .panicked, rest)
    | (out, _, .hung) => (out, .hung, rest)
  | (.cmd none, rest) => ([], .stopClean, rest)
  | (.ioError e, rest) => ([], .errored e, rest)
  | (.panicked, rest) => ([], .panicked, rest)
  | (.hang, rest) => ([], .hung, rest)

/-- A backend source of the proxy (library::details::Source): an external
label and an internal file URI, kept as their bytes. -/
structure KodiSource where
  label : Bytes
  file : Bytes
deriving DecidableEq

/-- Splits a byte string at every slash. -/
def splitSlash (bs : Bytes) : List Bytes :=
  bs.foldr
    (fun b acc =>
      if b = 47 then [] :: acc
      else
        match acc with
        | [] => [[b]]
        | g :: gs => (b :: g) :: gs)
    [[]]

/-- Components of a path string: split on the separator dropping empty
segments, as Rust Path::components normalizes. -/
def pathComponents (s : Bytes) : List Bytes :=
  (splitSlash s).filter (fun t => t ≠ [])

/-- Embeds PathMapper::to_internal of kodi-mpd-proxy/src/main.rs: the first
source whose label is a component prefix of the external path wins. -/
def to_internal (sources : List KodiSource) (external : List Bytes) : Option (List Bytes) :=
  match sources with
  | [] => none
  | s :: rest =>
    if (pathComponents s.label).isPrefixOf external then
      some (pathComponents s.file ++ external.drop (pathComponents s.label).length)
    else to_internal rest external

/-- Embeds PathMapper::to_external: the symmetric direction. -/
def to_external (sources : List KodiSource) (internal : List Bytes) : Option (List Bytes) :=
  match sources with
  | [] => none
  | s :: rest =>
    if (pathComponents s.file).isPrefixOf internal then
      some (pathComponents s.label ++ internal.drop (pathComponents s.file).length)
    else to_external rest internal

/-- File type of a backend directory entry. -/
inductive KodiFileType
  | Directory
  | File
deriving DecidableEq

/-- A backend directory entry as returned by the FilesGetDirectory RPC; the
lastmodified timestamp is kept as its rendered RFC-3339 bytes (chrono is
external). -/
structure KodiFile where
  file : Bytes
  filetype : KodiFileType
  lastmodified : Option Bytes := none
  duration : Option Nat := none
  artist : List Bytes := []
  album : Option Bytes := none
  genre : List Bytes := []
  title : Option Bytes := none
  track : Option Nat := none
  year : Option Nat := none

/-- Path rendering: components joined with the separator. -/
def renderPath : List Bytes → Bytes
  | [] => []
  | [x] => x
  | x :: xs => x ++ 47 :: renderPath xs

/-- The library entry built from one backend file in list_directory. -/
def kodiFileToEntry (ext : List Bytes) (f : KodiFile) : LibraryEntry :=
  match f.filetype with
  | .Directory => .Directory (renderPath ext) f.lastmodified
  | .File => .File
    { path := renderPath ext
      last_modified := f.lastmodified
      format := none
      duration := f.duration
      tags :=
        (f.artist.map (fun a => Tag.mk .Artist a)) ++
        (match f.album with | some v => [Tag.mk .Album v] | none => []) ++
        (f.genre.map (fun g => Tag.mk .Genre g)) ++
        (match f.title with | some v => [Tag.mk .Title v] | none => []) ++
        (match f.track with | some t => [Tag.mk .Track (decBytes t)] | none => []) ++
        (match f.year with | some y => [Tag.mk .Date (decBytes y)] | none => []) }

/-- Embeds KodiProxyCommandHandler::list_directory. The two RPCs are oracles:
sources is the AudioLibraryGetSources result and getDirectory the
FilesGetDirectory result per internal path. A URL is its scheme plus the
components of its file path (to_file_path). Returns none where the source
would panic (the unwrap on to_external for a backend file outside every
source). -/
def kodiListDirectory (sources : Except Bytes (List KodiSource))
    (getDirectory : List Bytes → Except Bytes (List KodiFile))
    (url : Option MUrl) : Option (Except Bytes (List LibraryEntry)) :=
  match sources with
  | .error e => some (.error e)
  | .ok srcs =>
    match url with
    | some u =>
      if u.scheme ≠ "file" then some (.error (strBytes "Unsupported URI scheme"))
      else kodiListDirectoryGo srcs getDirectory u.path
    | none => kodiListDirectoryGo srcs getDirectory []
where
  kodiListDirectoryGo (srcs : List KodiSource)
      (getDirectory : List Bytes → Except Bytes (List KodiFile))
      (path : List Bytes) : Option (Except Bytes (List LibraryEntry)) :=
    if path = [] then
      some (.ok (srcs.map (fun s => .Directory s.label none)))
    else
      match to_internal srcs path with
      | some internal =>
        match getDirectory internal with
        | .error e => some (.error e)
        | .ok files =>
          (files.mapM (fun f =>
            (to_external srcs (pathComponents f.file)).map
              (fun ext => kodiFileToEntry ext f))).map .ok
      | none => some (.ok [])

/-- The shared state of the change ledger of KodiPlayer in
kodi-mpd-proxy/src/player.rs: the per-subsystem event counters, the global
version counter and the value last published on the watch channel. -/
structure Ledger where
  counts : MPDSubsystem → Nat
  version : Nat
  published : Nat

/-- The ledger at process start: zero counters and watch::channel(0). -/
def Ledger.init : Ledger := ⟨fun _ => 0, 0, 0⟩

/-- The progress of one KodiPlayer::event_new call through its three
operations on the shared ledger: the fetch_add on the subsystem counter
(whose previous value becomes the return value of the call), the fetch_add
on the global version (capturing the previous version), and the send on the
watch channel. event_new is called from the poller task (refresh) and also
from session tasks (seek and seek_current of kodi-mpd-proxy/src/main.rs), so
the operations of distinct calls interleave. -/
inductive CallPhase
  | start
  | counted (ret : Nat)
  | versioned (ret v : Nat)
  | finished (ret : Nat)
deriving DecidableEq

/-- One event_new call: its subsystem argument and its progress. -/
structure EventCall where
  subsys : MPDSubsystem
  phase : CallPhase
deriving DecidableEq

/-- One atomic operation of KodiPlayer::event_new on the shared ledger: the
subsystem counter fetch_add, the version fetch_add, or the watch send of the
captured previous version plus one; a finished call does nothing. -/
def Ledger.microStep (s : Ledger) (c : EventCall) : Ledger × EventCall :=
  match c.phase with
  | .start =>
    (⟨fun x => if x = c.subsys then s.counts x + 1 else s.counts x, s.version, s.published⟩,
     ⟨c.subsys, .counted (s.counts c.subsys)⟩)
  | .counted ret =>
    (⟨s.counts, s.version + 1, s.published⟩, ⟨c.subsys, .versioned ret s.version⟩)
  | .versioned ret v =>
    (⟨s.counts, s.version, v + 1⟩, ⟨c.subsys, .finished ret⟩)
  | .finished _ => (s, c)

/-- The ledger together with every event_new call issued so far, in-flight
or finished, across the poller and all session tasks. -/
structure LedgerSys where
  state : Ledger
  calls : List EventCall

/-- The system at process start with a set of event_new calls about to run
concurrently, each at its entry point. -/
def LedgerSys.init (pending : List MPDSubsystem) : LedgerSys :=
  ⟨Ledger.init, pending.map (fun e => ⟨e, .start⟩)⟩

/-- One scheduler step: the call at index i performs its next atomic
operation (an out-of-range index changes nothing). -/
def LedgerSys.step (sys : LedgerSys) (i : Nat) : LedgerSys :=
  match sys.calls[i]? with
  | none => sys
  | some c => ⟨(sys.state.microStep c).1, sys.calls.set i (sys.state.microStep c).2⟩

/-- The system after an interleaving; the schedule lists which call acts at
each point. Every reachable state of the change ledger arises this way for
some set of calls and some schedule. -/
def LedgerSys.run (sys : LedgerSys) (sched : List Nat) : LedgerSys :=
  sched.foldl LedgerSys.step sys

/-- Whether an event_new call has completed its three operations. -/
def EventCall.isDone (c : EventCall) : Bool :=
  match c.phase with
  | .finished _ => true
  | _ => false

/-- Whether a call has performed its subsystem-counter fetch_add. -/
def CallPhase.pastCount : CallPhase → Bool
  | .start => false
  | _ => true

/-- Whether a call has performed its version fetch_add. -/
def CallPhase.pastVersion : CallPhase → Bool
  | .start => false
  | .counted _ => false
  | _ => true

/-- The number of calls past their subsystem-counter fetch_add. -/
def countedCalls (calls : List EventCall) : Nat :=
  (calls.filter (fun c => c.phase.pastCount)).length

/-- The number of calls past their version fetch_add. -/
def versionedCalls (calls : List EventCall) : Nat :=
  (calls.filter (fun c => c.phase.pastVersion)).length

/-- Sum of all per-subsystem counters. -/
def sumCounts (s : Ledger) : Nat := (allSubsystems.map s.counts).sum

/-- The inductive invariant of the interleaved ledger: the counters sum to
the number of calls past their counter fetch_add, the version counts the
calls past their version fetch_add, the published value never exceeds the
version, and every version captured by an unsent call is below the current
version. -/
def LedgerInv (sys : LedgerSys) : Prop :=
  sumCounts sys.state = countedCalls sys.calls ∧
  sys.state.version = versionedCalls sys.calls ∧
  sys.state.published ≤ sys.state.version ∧
  ∀ c ∈ sys.calls, ∀ r v, c.phase = .versioned r v → v < sys.state.version

/-- A handler whose responses are all trivial; used to instantiate theorems
at concrete inputs. -/
def defaultHandler : Handler where
  status := {}
  list_directory := fun _ => .ok []
  queue_current := none
  queue_list := fun _ => []
  queue_get := fun _ => none
  queue_add_file := fun _ _ => .ok 0
  queue_add := fun _ _ => .ok none
  queue_swap := fun _ _ => .ok ()
  queue_delete := fun _ => .ok ()
  queue_clear := .ok ()
  seek := fun _ _ => .ok ()
  seek_current := fun _ => .ok ()
  random := fun _ => .ok ()
  volume_get := none
  library_update := fun _ _ => .ok ()
  library_list := fun _ _ _ => .ok []
  library_find := fun _ _ => .ok []
  idle := fun _ => .ok allSubsystemSet
  tags_enable := fun _ => .ok ()
  tags_disable := fun _ => .ok ()
  tags_get := .ok allTagSet

/-- Parsing one already-read command line and processing the command, as the
session does; a parse panic is reported as a panicked outcome with no reply. -/
def sessionReply (up : Bytes → Option MUrl) (h : Handler) (name args : Bytes) :
    Bytes × List HEvent × ProcOutcome :=
  match parse_command up name args with
  | some c => c.processModel h
  | none => ([], [], .panicked)

/-- A bare (unquoted) token on the wire: nonempty, not starting with a quote
character, and free of the space separator. -/
def isBareToken : Bytes → Bool
  | [] => false
  | c :: rest => c != 34 && c != 39 && (c :: rest).all (fun b => b != 32)

/-- Whether a byte string does not start with a space, so that
skip_whitespace leaves it unchanged. -/
def noLeadSpace : Bytes → Bool
  | [] => true
  | b :: _ => b != 32

/-- The lowercase wire spelling of each tag type, exactly the byte strings
accepted by TagType.fromBytes. -/
def TagType.wire : TagType → Bytes
  | .Artist => strBytes "artist"
  | .ArtistSort => strBytes "artistsort"
  | .Album => strBytes "album"
  | .AlbumSort => strBytes "albumsort"
  | .AlbumArtist => strBytes "albumartist"
  | .AlbumArtistSort => strBytes "albumartistsort"
  | .Title => strBytes "title"
  | .Track => strBytes "track"
  | .Name => strBytes "name"
  | .Genre => strBytes "genre"
  | .Date => strBytes "date"
  | .OriginalDate => strBytes "originaldate"
  | .Composer => strBytes "composer"
  | .Performer => strBytes "performer"
  | .Conductor => strBytes "conductor"
  | .Work => strBytes "work"
  | .Grouping => strBytes "grouping"
  | .Comment => strBytes "comment"
  | .Disc => strBytes "disc"
  | .Label => strBytes "label"
  | .MusicBrainzArtistId => strBytes "musicbrainz_artistid"
  | .MusicBrainzAlbumId => strBytes "musicbrainz_albumid"
  | .MusicBrainzAlbumArtistId => strBytes "musicbrainz_albumartistid"
  | .MusicBrainzTrackId => strBytes "musicbrainz_trackid"
  | .MusicBrainzReleaseTrackId => strBytes "musicbrainz_releasetrackid"
  | .MusicBrainzWorkId => strBytes "musicbrainz_workid"

/-- The wire rendering of a list of TAG VALUE filter pairs: each tag in its
lowercase spelling, tokens single-space separated, with a trailing space
after each value. -/
def renderFilters : List (TagType × Bytes) → Bytes
  | [] => []
  | (t, v) :: ps => TagType.wire t ++ 32 :: (v ++ 32 :: renderFilters ps)

lemma le_valFrom (ds : Bytes) : ∀ a : Nat, a ≤ valFrom a ds := by
  induction ds with
  | nil => intro a; exact Nat.le_refl a
  | cons d ds ih =>
    intro a
    have h1 : a ≤ a * 10 + (d - 48) := by omega
    exact Nat.le_trans h1 (ih (a * 10 + (d - 48)))

lemma valFrom_append (a : Nat) (xs ys : Bytes) :
    valFrom a (xs ++ ys) = valFrom (valFrom a xs) ys := by
  simp [valFrom, List.foldl_append]

lemma parseIntLoop_nil (delim a p : Nat) :
    parseIntLoop delim a p [] =
      if delim = 32 then .ok (a, []) else .error (.MissingClosingDelimiter delim) := rfl

lemma parseIntLoop_cons_def (delim a p b : Nat) (rest : Bytes) :
    parseIntLoop delim a p (b :: rest) =
      (if isDigitByte b then
        match checkedMul a 10 with
        | none => .error .Overflow
        | some m =>
          match checkedAdd m (b - 48) with
          | none => .error .Overflow
          | some num2 => parseIntLoop delim num2 (p + 1) rest
      else if b = delim then .ok (a, rest)
      else .error (.InvalidDigit (some a) p)) := rfl

lemma parseIntLoop_cons_digit (delim a p b : Nat) (rest : Bytes) (hb : isDigitByte b = true) :
    parseIntLoop delim a p (b :: rest) =
      if a * 10 ≤ USIZE_MAX then
        (if a * 10 + (b - 48) ≤ USIZE_MAX then
          parseIntLoop delim (a * 10 + (b - 48)) (p + 1) rest
         else .error .Overflow)
      else .error .Overflow := by
  rw [parseIntLoop_cons_def]
  by_cases h1 : a * 10 ≤ USIZE_MAX
  · by_cases h2 : a * 10 + (b - 48) ≤ USIZE_MAX
    · simp [hb, checkedMul, checkedAdd, h1, h2]
    · simp [hb, checkedMul, checkedAdd, h1, h2]
  · simp [hb, checkedMul, h1]

lemma parseIntLoop_cons_nondigit (delim a p b : Nat) (rest : Bytes)
    (hb : isDigitByte b = false) :
    parseIntLoop delim a p (b :: rest) =
      if b = delim then .ok (a, rest) else .error (.InvalidDigit (some a) p) := by
  rw [parseIntLoop_cons_def]
  by_cases h : b = delim
  · subst h
    simp [hb]
  · simp [hb, h]

lemma parse_integer_cons_def (delim b : Nat) (rest : Bytes) :
    parse_integer delim (b :: rest) =
      (if isDigitByte b then parseIntLoop delim (b - 48) 1 rest
       else if b = delim then .error .Empty
       else .error (.InvalidDigit none 0)) := rfl

lemma parse_integer_cons_digit (delim b : Nat) (rest : Bytes) (hb : isDigitByte b = true) :
    parse_integer delim (b :: rest) = parseIntLoop delim (b - 48) 1 rest := by
  rw [parse_integer_cons_def]
  simp [hb]

lemma parseIntLoop_digits (delim : Nat) :
    ∀ ds : Bytes, (∀ b ∈ ds, isDigitByte b = true) → ∀ (rest : Bytes) (a p : Nat),
    a ≤ USIZE_MAX →
    parseIntLoop delim a p (ds ++ rest) =
      if valFrom a ds ≤ USIZE_MAX then
        parseIntLoop delim (valFrom a ds) (p + ds.length) rest
      else .error .Overflow := by
  intro ds
  induction ds with
  | nil => intro _ rest a p ha; simp [valFrom, ha]
  | cons d ds ih =>
    intro hds rest a p ha
    have hd : isDigitByte d = true := hds d (List.mem_cons_self ..)
    have hds2 : ∀ b ∈ ds, isDigitByte b = true := fun b hb => hds b (List.mem_cons_of_mem _ hb)
    have hvf : valFrom a (d :: ds) = valFrom (a * 10 + (d - 48)) ds := by simp [valFrom]
    have hge : a * 10 + (d - 48) ≤ valFrom (a * 10 + (d - 48)) ds := le_valFrom ds _
    rw [List.cons_append, parseIntLoop_cons_digit delim a p d _ hd]
    by_cases h1 : a * 10 ≤ USIZE_MAX
    · by_cases h2 : a * 10 + (d - 48) ≤ USIZE_MAX
      · rw [if_pos h1, if_pos h2, ih hds2 rest (a * 10 + (d - 48)) (p + 1) h2, hvf]
        have hlen : p + 1 + ds.length = p + (d :: ds).length := by simp; omega
        rw [hlen]
      · rw [if_pos h1, if_neg h2, if_neg (by omega)]
    · rw [if_neg h1, if_neg (by omega)]

lemma decBytesCore_append : ∀ (fuel n : Nat) (acc : Bytes),
    decBytesCore fuel n acc = decBytesCore fuel n [] ++ acc := by
  intro fuel
  induction fuel with
  | zero => intro n acc; simp [decBytesCore]
  | succ f ih =>
    intro n acc
    by_cases h : n < 10
    · simp [decBytesCore, h]
    · simp only [decBytesCore, if_neg h]
      rw [ih (n / 10) ((48 + n % 10) :: acc), ih (n / 10) [48 + n % 10]]
      simp

lemma decBytesCore_fuel : ∀ (n f g : Nat), n < f → n < g →
    decBytesCore f n [] = decBytesCore g n [] := by
  intro n
  induction n using Nat.strong_induction_on with
  | _ n ih =>
    intro f g hf hg
    cases f with
    | zero => omega
    | succ f =>
      cases g with
      | zero => omega
      | succ g =>
        by_cases h : n < 10
        · simp [decBytesCore, h]
        · have h10 : n / 10 < n := Nat.div_lt_self (by omega) (by omega)
          simp only [decBytesCore, if_neg h]
          rw [decBytesCore_append f, decBytesCore_append g]
          rw [ih (n / 10) h10 f g (by omega) (by omega)]

lemma decBytes_eq (n : Nat) :
    decBytes n = if n < 10 then [48 + n] else decBytes (n / 10) ++ [48 + n % 10] := by
  by_cases h : n < 10
  · simp [decBytes, decBytesCore, h]
  · have h10 : n / 10 < n := Nat.div_lt_self (by omega) (by omega)
    simp only [if_neg h]
    show decBytesCore (n + 1) n [] = _
    rw [show decBytesCore (n + 1) n [] = decBytesCore n (n / 10) [48 + n % 10] from by
      simp [decBytesCore, h]]
    rw [decBytesCore_append]
    rw [decBytesCore_fuel (n / 10) n (n / 10 + 1) (by omega) (by omega)]
    rfl

lemma digitsVal_decBytes (n : Nat) : digitsVal (decBytes n) = n := by
  induction n using Nat.strong_induction_on with
  | _ n ih =>
    rw [decBytes_eq]
    by_cases h : n < 10
    · simp [h, digitsVal, valFrom]
    · have h10 : n / 10 < n := Nat.div_lt_self (by omega) (by omega)
      simp only [if_neg h, digitsVal, valFrom_append]
      have hv := ih (n / 10) h10
      simp only [digitsVal] at hv
      rw [hv]
      simp [valFrom]
      omega

lemma allDigits_decBytes (n : Nat) : ∀ b ∈ decBytes n, isDigitByte b = true := by
  induction n using Nat.strong_induction_on with
  | _ n ih =>
    rw [decBytes_eq]
    by_cases h : n < 10
    · intro b hb
      simp [h] at hb
      subst hb
      simp [isDigitByte]
      omega
    · intro b hb
      simp only [if_neg h] at hb
      rcases List.mem_append.1 hb with h1 | h2
      · exact ih (n / 10) (Nat.div_lt_self (by omega) (by omega)) b h1
      · simp at h2
        subst h2
        simp [isDigitByte]
        omega

lemma decBytes_head (n : Nat) : ∃ d ds, decBytes n = d :: ds ∧ isDigitByte d = true := by
  induction n using Nat.strong_induction_on with
  | _ n ih =>
    rw [decBytes_eq]
    by_cases h : n < 10
    · exact ⟨48 + n, [], by simp [h], by simp [isDigitByte]; omega⟩
    · obtain ⟨d, ds, hds, hd⟩ := ih (n / 10) (Nat.div_lt_self (by omega) (by omega))
      exact ⟨d, ds ++ [48 + n % 10], by simp [if_neg h, hds], hd⟩

lemma parse_integer_decBytes (delim n : Nat) (h : n ≤ USIZE_MAX) (rest : Bytes) :
    parse_integer delim (decBytes n ++ rest) =
      parseIntLoop delim n ((decBytes n).length) rest := by
  obtain ⟨d, ds, hds, hd⟩ := decBytes_head n
  have hall := allDigits_decBytes n
  rw [hds] at hall
  have htail : ∀ b ∈ ds, isDigitByte b = true := fun b hb => hall b (List.mem_cons_of_mem _ hb)
  have hd48 : d - 48 ≤ USIZE_MAX := by
    simp [isDigitByte] at hd
    simp [USIZE_MAX]
    omega
  have hval : valFrom (d - 48) ds = n := by
    have := digitsVal_decBytes n
    rw [hds] at this
    simp only [digitsVal, valFrom] at this ⊢
    simpa using this
  rw [hds, List.cons_append, parse_integer_cons_digit delim d _ hd]
  rw [parseIntLoop_digits delim ds htail rest (d - 48) 1 hd48, hval]
  rw [if_pos h]
  have hlen : (1 : Nat) + ds.length = (d :: ds).length := by simp [Nat.add_comm]
  rw [hlen]

lemma usizeFromBytes_cons_def (first : Nat) (rest : Bytes) :
    usizeFromBytes (first :: rest) =
      if first = 34 then parse_integer 34 rest else parse_integer 32 (first :: rest) := rfl

lemma usize_decBytes_cont (n : Nat) (h : n ≤ USIZE_MAX) (rest : Bytes) :
    usizeFromBytes (decBytes n ++ rest) = parseIntLoop 32 n ((decBytes n).length) rest := by
  obtain ⟨d, ds, hds, hd⟩ := decBytes_head n
  have hd34 : ¬(d = 34) := by simp [isDigitByte] at hd; omega
  rw [hds, List.cons_append, usizeFromBytes_cons_def]
  rw [if_neg hd34, ← List.cons_append, ← hds]
  exact parse_integer_decBytes 32 n h rest

lemma usize_decBytes (n : Nat) (h : n ≤ USIZE_MAX) :
    usizeFromBytes (decBytes n) = .ok (n, []) := by
  have hc := usize_decBytes_cont n h []
  rw [List.append_nil] at hc
  rw [hc, parseIntLoop_nil]
  simp

lemma usize_decBytes_quoted (n : Nat) (h : n ≤ USIZE_MAX) :
    usizeFromBytes (34 :: decBytes n ++ [34]) = .ok (n, []) := by
  rw [List.cons_append, usizeFromBytes_cons_def, if_pos rfl]
  rw [parse_integer_decBytes 34 n h [34]]
  rw [parseIntLoop_cons_nondigit 34 n _ 34 [] (by decide)]
  simp

lemma getD_append_len (xs ys : Bytes) (y d : Nat) :
    (xs ++ y :: ys).getD xs.length d = y := by
  induction xs with
  | nil => rfl
  | cons x xs ih =>
    simp only [List.cons_append, List.length_cons, List.getD_cons_succ]
    exact ih

lemma drop_append_len (xs ys : Bytes) (y : Nat) :
    (xs ++ y :: ys).drop (xs.length + 1) = ys := by
  induction xs with
  | nil => rfl
  | cons x xs ih =>
    simp only [List.cons_append, List.length_cons, List.drop_succ_cons]
    exact ih

example : usizeFromBytes (strBytes "50") = .ok (50, []) := rfl
example : usizeFromBytes (strBytes "50a") = .error (.InvalidDigit (some 50) 2) := rfl
example : usizeFromBytes (34 :: strBytes "50" ++ [34]) = .ok (50, []) := rfl
example : rangeFromBytes (strBytes "2:5") = .ok ((2, 5), []) := rfl
example : rangeFromBytes (strBytes "5:2") = .ok ((5, 2), []) := rfl
example : rangeFromBytes (strBytes ":5") = .error (.InvalidDigit none 0) := rfl
example : rangeFromBytes (strBytes "5:") = .error .Empty := rfl
example : decBytes 1234 = strBytes "1234" := rfl
example : bstringFromBytes (strBytes "foo bar") = .ok (strBytes "foo", strBytes "bar") := rfl


lemma processModel_invalid (h : Handler) (nm args : Bytes) (reason : CommandError) :
    MPDCommand.processModel h (.Sub (.Invalid nm args reason)) =
      (ackLine reason.code 0 nm reason.msg, [], .done) := rfl

lemma parseCommandBody_pause (up : Bytes → Option MUrl) (args : Bytes) :
    parseCommandBody up (strBytes "pause") args =
      (if args = [] then .value (.Sub (.Pause none)) args
       else
        match nextArgUsize (strBytes "pause") args with
        | .error c => .early c
        | .ok (arg, rest) =>
          if arg = 0 then .value (.Sub (.Pause (some false))) rest
          else if arg = 1 then .value (.Sub (.Pause (some true))) rest
          else
            .value (.Sub (.Invalid (strBytes "pause") rest
              (.Unknown (strBytes "Boolean (0/1) expected: " ++ decBytes arg)))) rest) := rfl

lemma parseCommandBody_random (up : Bytes → Option MUrl) (args : Bytes) :
    parseCommandBody up (strBytes "random") args =
      (match nextArgUsize (strBytes "random") args with
       | .error c => .early c
       | .ok (arg, rest) =>
         if arg = 0 then .value (.Sub (.Random false)) rest
         else if arg = 1 then .value (.Sub (.Random true)) rest
         else
           .value (.Sub (.Invalid (strBytes "random") rest
             (.Unknown (strBytes "Boolean (0/1) expected: " ++ decBytes arg)))) rest) := rfl

lemma parseCommandBody_find (up : Bytes → Option MUrl) (args : Bytes) :
    parseCommandBody up (strBytes "find") args =
      (match findFiltersLoop (strBytes "find") args [] with
       | .error c => .early c
       | .ok (filters, argsF) => .value (.Sub (.Find filters)) argsF) := rfl

lemma parseCommandBody_search (up : Bytes → Option MUrl) (args : Bytes) :
    parseCommandBody up (strBytes "search") args =
      (match findFiltersLoop (strBytes "search") args [] with
       | .error c => .early c
       | .ok (filters, argsF) => .value (.Sub (.Search filters)) argsF) := rfl

lemma decBytes_ne_nil (n : Nat) : decBytes n ≠ [] := by
  obtain ⟨d, ds, hds, _⟩ := decBytes_head n
  rw [hds]
  simp

lemma skip_whitespace_decBytes (n : Nat) : skip_whitespace (decBytes n) = decBytes n := by
  obtain ⟨d, ds, hds, hd⟩ := decBytes_head n
  have : ¬(d = 32) := by simp [isDigitByte] at hd; omega
  rw [hds]
  simp [skip_whitespace, List.dropWhile_cons, this]

lemma nextArgUsize_decBytes (nm : Bytes) (n : Nat) (hm : n ≤ USIZE_MAX) :
    nextArgUsize nm (decBytes n) = .ok (n, []) := by
  unfold nextArgUsize
  rw [if_neg (decBytes_ne_nil n), usize_decBytes n hm]
  rfl

/-- C4: setvol with no argument is answered by exactly the wrong-number ACK
line with code 2, and setvol 50a by exactly the Invalid-digit ACK line with
code 2; the recorded handler-call list is empty in both cases, so volume_set
is never invoked. -/
theorem C4_setvol_errors (up : Bytes → Option MUrl) (h : Handler) :
    sessionReply up h (strBytes "setvol") [] =
      (strBytes "ACK [2@0] \x7bsetvol\x7d wrong number of arguments for \"setvol\"\n",
       [], .done) ∧
    sessionReply up h (strBytes "setvol") (strBytes "50a") =
      (strBytes "ACK [2@0] \x7bsetvol\x7d Invalid digit\n", [], .done) := ⟨rfl, rfl⟩

/-- C4 witness: the same two replies at a concrete url parser and handler. -/
theorem C4_setvol_errors_witness :
    sessionReply (fun _ => none) defaultHandler (strBytes "setvol") [] =
      (strBytes "ACK [2@0] \x7bsetvol\x7d wrong number of arguments for \"setvol\"\n",
       [], .done) :=
  (C4_setvol_errors (fun _ => none) defaultHandler).1

/-- C7 counterexample: pause 2 and random 2 are answered with ACK code 5
(Unknown), not the claimed code 2 (InvalidArgument). -/
theorem C7_counterexample :
    sessionReply (fun _ => none) defaultHandler (strBytes "pause") (strBytes "2") =
      (strBytes "ACK [5@0] \x7bpause\x7d Boolean (0/1) expected: 2\n", [], .done) ∧
    sessionReply (fun _ => none) defaultHandler (strBytes "random") (strBytes "2") =
      (strBytes "ACK [5@0] \x7brandom\x7d Boolean (0/1) expected: 2\n", [], .done) ∧
    (sessionReply (fun _ => none) defaultHandler (strBytes "pause") (strBytes "2")).1 ≠
      ackLine 2 0 (strBytes "pause") (strBytes "Boolean (0/1) expected: 2") := by
  refine ⟨rfl, rfl, by decide⟩

/-- C7 amended: for every integer argument that is neither 0 nor 1, pause and
random are rejected as a bad boolean, but with error code 5 (Unknown) in the
ACK line, not code 2; no handler method is invoked. -/
theorem C7_bad_boolean_code5 (up : Bytes → Option MUrl) (h : Handler) (n : Nat)
    (h0 : n ≠ 0) (h1 : n ≠ 1) (hm : n ≤ USIZE_MAX) :
    sessionReply up h (strBytes "pause") (decBytes n) =
      (ackLine 5 0 (strBytes "pause") (strBytes "Boolean (0/1) expected: " ++ decBytes n),
       [], .done) ∧
    sessionReply up h (strBytes "random") (decBytes n) =
      (ackLine 5 0 (strBytes "random") (strBytes "Boolean (0/1) expected: " ++ decBytes n),
       [], .done) := by
  constructor
  · unfold sessionReply parse_command
    rw [skip_whitespace_decBytes, parseCommandBody_pause]
    rw [if_neg (decBytes_ne_nil n), nextArgUsize_decBytes _ n hm]
    simp only [if_neg h0, if_neg h1]
    exact processModel_invalid h _ _ _
  · unfold sessionReply parse_command
    rw [skip_whitespace_decBytes, parseCommandBody_random]
    rw [nextArgUsize_decBytes _ n hm]
    simp only [if_neg h0, if_neg h1]
    exact processModel_invalid h _ _ _

/-- C7 witness: the amended claim at the concrete argument 2. -/
theorem C7_bad_boolean_code5_witness :
    sessionReply (fun _ => none) defaultHandler (strBytes "pause") (decBytes 2) =
      (ackLine 5 0 (strBytes "pause") (strBytes "Boolean (0/1) expected: " ++ decBytes 2),
       [], .done) :=
  (C7_bad_boolean_code5 (fun _ => none) defaultHandler 2 (by decide) (by decide)
    (by norm_num [USIZE_MAX])).1

lemma take_append_len (xs ys : Bytes) (y : Nat) :
    (xs ++ y :: ys).take xs.length = xs := by
  induction xs with
  | nil => rfl
  | cons x xs ih =>
    rw [List.cons_append, List.length_cons, List.take_succ_cons, ih]

lemma findIdx_bare (tok : Bytes) (htok : tok.all (fun b => b != 32) = true) (tail : Bytes) :
    ∀ i : Nat, List.findIdx? (fun b => b = 32) (tok ++ 32 :: tail) i
      = some (i + tok.length) := by
  induction tok with
  | nil =>
    intro i
    simp [List.findIdx?]
  | cons c r ih =>
    rw [List.all_cons, Bool.and_eq_true] at htok
    obtain ⟨hc, hr⟩ := htok
    rw [bne_iff_ne] at hc
    intro i
    have hstep : List.findIdx? (fun b => b = 32) (c :: (r ++ 32 :: tail)) i
        = List.findIdx? (fun b => b = 32) (r ++ 32 :: tail) (i + 1) := by
      rw [List.findIdx?]
      simp [hc]
    rw [List.cons_append, hstep, ih hr (i + 1)]
    congr 1
    simp only [List.length_cons]
    omega

lemma bstringFromBytes_bare (tok tail : Bytes) (h : isBareToken tok = true) :
    bstringFromBytes (tok ++ 32 :: tail) = .ok (tok, tail) := by
  match tok, h with
  | c :: r, h =>
    rw [isBareToken, List.all_cons] at h
    simp only [Bool.and_eq_true, bne_iff_ne, ne_eq] at h
    obtain ⟨⟨h34, h39⟩, hc32, hall⟩ := h
    have hq : ¬(c = 34 ∨ c = 39) := by
      intro hcq
      rcases hcq with hcq | hcq
      · exact h34 hcq
      · exact h39 hcq
    have hpred : (c :: r).all (fun b => b != 32) = true := by
      rw [List.all_cons, Bool.and_eq_true]
      exact ⟨by simp [hc32], hall⟩
    rw [List.cons_append]
    simp only [bstringFromBytes]
    rw [if_neg hq, if_neg hc32]
    rw [← List.cons_append, findIdx_bare (c :: r) hpred tail 0]
    simp only [Nat.zero_add]
    rw [take_append_len, drop_append_len]

lemma skip_whitespace_noLead (l : Bytes) (h : noLeadSpace l = true) :
    skip_whitespace l = l := by
  cases l with
  | nil => rfl
  | cons b r =>
    rw [noLeadSpace, bne_iff_ne] at h
    simp [skip_whitespace, List.dropWhile_cons, h]

lemma nextArgBString_bare (name tok tail : Bytes) (h : isBareToken tok = true)
    (htail : noLeadSpace tail = true) :
    nextArgBString name (tok ++ 32 :: tail) = .ok (tok, tail) := by
  have hne : tok ++ 32 :: tail ≠ [] := by
    cases tok <;> simp
  unfold nextArgBString
  rw [if_neg hne, bstringFromBytes_bare tok tail h]
  show Except.ok (tok, skip_whitespace tail) = Except.ok (tok, tail)
  rw [skip_whitespace_noLead tail htail]

lemma wire_fromBytes (t : TagType) : TagType.fromBytes (TagType.wire t) = some t := by
  cases t <;> rfl

lemma wire_lower (t : TagType) : toLowerBytes (TagType.wire t) = TagType.wire t := by
  cases t <;> rfl

lemma wire_bare (t : TagType) : isBareToken (TagType.wire t) = true := by
  cases t <;> rfl

lemma wire_not_sort_window (t : TagType) :
    ¬(TagType.wire t = strBytes "sort" ∨ TagType.wire t = strBytes "window") := by
  cases t <;> decide

lemma wire_append_ne_nil (t : TagType) (r : Bytes) : TagType.wire t ++ r ≠ [] := by
  cases t <;> exact fun hx => nomatch hx

lemma wire_noLead (t : TagType) (r : Bytes) : noLeadSpace (TagType.wire t ++ r) = true := by
  cases t <;> rfl

lemma bare_noLead (v r : Bytes) (h : isBareToken v = true) :
    noLeadSpace (v ++ r) = true := by
  cases v with
  | nil => simp [isBareToken] at h
  | cons c cr =>
    rw [isBareToken, List.all_cons] at h
    simp only [Bool.and_eq_true] at h
    rw [List.cons_append, noLeadSpace]
    exact h.2.1

lemma noLeadSpace_renders (ps : List (TagType × Bytes)) (tail : Bytes)
    (htail : noLeadSpace tail = true) :
    noLeadSpace (renderFilters ps ++ tail) = true := by
  cases ps with
  | nil => simpa [renderFilters] using htail
  | cons p ps =>
    obtain ⟨t, v⟩ := p
    rw [renderFilters, List.append_assoc]
    exact wire_noLead t _

lemma findFiltersLoop_iter (name args a0 r1 v r2 : Bytes) (t : TagType)
    (filters : List TagFilter)
    (hne : args ≠ [])
    (h1 : nextArgBString name args = .ok (a0, r1))
    (hsw : ¬(toLowerBytes a0 = strBytes "sort" ∨ toLowerBytes a0 = strBytes "window"))
    (htag : TagType.fromBytes (toLowerBytes a0) = some t)
    (h2 : nextArgBString name r1 = .ok (v, r2)) :
    findFiltersLoop name args filters = findFiltersLoop name r2 (filters ++ [(t, v)]) := by
  rw [findFiltersLoop]
  rw [dif_neg hne]
  split
  · next c heq =>
    rw [h1] at heq
    cases heq
  · next arg0 rest heq =>
    rw [h1] at heq
    simp only [Except.ok.injEq, Prod.mk.injEq] at heq
    obtain ⟨ha, hb⟩ := heq
    subst ha
    subst hb
    rw [if_neg hsw]
    split
    · next htag2 =>
      rw [htag] at htag2
      cases htag2
    · next tag htag2 =>
      rw [htag] at htag2
      simp only [Option.some.injEq] at htag2
      subst htag2
      split
      · next c heq2 =>
        rw [h2] at heq2
        cases heq2
      · next value rest2 heq2 =>
        rw [h2] at heq2
        simp only [Except.ok.injEq, Prod.mk.injEq] at heq2
        obtain ⟨hv2, hr2⟩ := heq2
        subst hv2
        subst hr2
        rfl

lemma findFiltersLoop_renders (name : Bytes) (ps : List (TagType × Bytes)) :
    (∀ p ∈ ps, isBareToken p.2 = true) → ∀ (tail : Bytes), noLeadSpace tail = true →
    ∀ filters : List TagFilter,
      findFiltersLoop name (renderFilters ps ++ tail) filters =
        findFiltersLoop name tail (filters ++ ps) := by
  induction ps with
  | nil =>
    intro _ tail _ filters
    simp [renderFilters]
  | cons p ps ih =>
    intro hps tail htail filters
    obtain ⟨t, v⟩ := p
    have hv : isBareToken v = true := hps (t, v) (List.mem_cons_self _ _)
    have hps2 : ∀ q ∈ ps, isBareToken q.2 = true :=
      fun q hq => hps q (List.mem_cons_of_mem _ hq)
    have harr : renderFilters ((t, v) :: ps) ++ tail =
        TagType.wire t ++ 32 :: (v ++ 32 :: (renderFilters ps ++ tail)) := by
      rw [renderFilters]
      simp [List.append_assoc]
    rw [harr]
    rw [findFiltersLoop_iter name
        (TagType.wire t ++ 32 :: (v ++ 32 :: (renderFilters ps ++ tail)))
        (TagType.wire t) (v ++ 32 :: (renderFilters ps ++ tail)) v
        (renderFilters ps ++ tail) t filters
        (wire_append_ne_nil t _)
        (nextArgBString_bare name (TagType.wire t) (v ++ 32 :: (renderFilters ps ++ tail))
          (wire_bare t) (bare_noLead v _ hv))
        (by rw [wire_lower]; exact wire_not_sort_window t)
        (by rw [wire_lower]; exact wire_fromBytes t)
        (nextArgBString_bare name v (renderFilters ps ++ tail) hv
          (noLeadSpace_renders ps tail htail))]
    rw [ih hps2 tail htail (filters ++ [(t, v)])]
    rw [List.append_assoc]
    rfl

set_option maxRecDepth 10000 in
lemma findFiltersLoop_break_gen (nm kw rest : Bytes) (filters : List TagFilter)
    (hkw : kw = strBytes "sort" ∨ kw = strBytes "window")
    (hr : rest = [] ∨ ∃ r2, rest = 32 :: r2) :
    findFiltersLoop nm (kw ++ rest) filters = .ok (filters, kw ++ rest) := by
  rcases hkw with hkw | hkw <;> rcases hr with hr | ⟨r2, hr⟩ <;> subst hkw <;> subst hr <;>
    (rw [findFiltersLoop]; rfl)

set_option maxRecDepth 10000 in
/-- C6 counterexample: find artist foo sort title does not succeed; the break
on sort leaves the remaining arguments unconsumed, the trailing-argument
check rejects the whole command, the reply is the wrong-number ACK and no
handler method (in particular library_find) is invoked. -/
theorem C6_counterexample :
    sessionReply (fun _ => none) defaultHandler (strBytes "find")
        (strBytes "artist foo sort title") =
      (strBytes "ACK [2@0] \x7bfind\x7d wrong number of arguments for \"find\"\n",
       [], .done) := by
  have hloop : findFiltersLoop (strBytes "find") (strBytes "artist foo sort title") [] =
      .ok ([(TagType.Artist, strBytes "foo")], strBytes "sort title") := by
    rw [findFiltersLoop]
    show findFiltersLoop (strBytes "find") (strBytes "sort title")
      [(TagType.Artist, strBytes "foo")] =
      .ok ([(TagType.Artist, strBytes "foo")], strBytes "sort title")
    rw [findFiltersLoop]
    rfl
  unfold sessionReply parse_command
  rw [show skip_whitespace (strBytes "artist foo sort title") =
    strBytes "artist foo sort title" from rfl]
  rw [parseCommandBody_find, hloop]
  rfl

/-- C6 amended: for every find or search command whose arguments are zero or
more TAG VALUE filter pairs (any tag types, any unquoted value tokens)
followed by the unpaired keyword sort or window, the keyword does stop the
filter collection, but it and everything after it stay unconsumed, so the
trailing-argument check turns the whole command into an Invalid with
InvalidArgument (wrong number of arguments); the collected filters are never
passed to the handler and no handler call is made. -/
theorem C6_sort_window_rejected (up : Bytes → Option MUrl) (h : Handler)
    (ps : List (TagType × Bytes)) (hps : ∀ p ∈ ps, isBareToken p.2 = true)
    (kw rest : Bytes)
    (hkw : kw = strBytes "sort" ∨ kw = strBytes "window")
    (hr : rest = [] ∨ ∃ r2, rest = 32 :: r2) :
    parse_command up (strBytes "find") (renderFilters ps ++ (kw ++ rest)) =
      some (.Sub (.Invalid (strBytes "find") (kw ++ rest)
        (.InvalidArgument (strBytes "wrong number of arguments for \"find\"")))) ∧
    parse_command up (strBytes "search") (renderFilters ps ++ (kw ++ rest)) =
      some (.Sub (.Invalid (strBytes "search") (kw ++ rest)
        (.InvalidArgument (strBytes "wrong number of arguments for \"search\"")))) ∧
    sessionReply up h (strBytes "find") (renderFilters ps ++ (kw ++ rest)) =
      (strBytes "ACK [2@0] \x7bfind\x7d wrong number of arguments for \"find\"\n",
       [], .done) ∧
    sessionReply up h (strBytes "search") (renderFilters ps ++ (kw ++ rest)) =
      (strBytes "ACK [2@0] \x7bsearch\x7d wrong number of arguments for \"search\"\n",
       [], .done) := by
  have hkwnl : noLeadSpace (kw ++ rest) = true := by
    rcases hkw with hkw | hkw <;> subst hkw <;> rfl
  have hne : kw ++ rest ≠ [] := by
    rcases hkw with hkw | hkw <;> subst hkw
    · show 115 :: (strBytes "ort" ++ rest) ≠ []
      simp
    · show 119 :: (strBytes "indow" ++ rest) ≠ []
      simp
  have hsw : skip_whitespace (renderFilters ps ++ (kw ++ rest)) =
      renderFilters ps ++ (kw ++ rest) :=
    skip_whitespace_noLead _ (noLeadSpace_renders ps (kw ++ rest) hkwnl)
  have hloopF : findFiltersLoop (strBytes "find") (renderFilters ps ++ (kw ++ rest)) [] =
      .ok (ps, kw ++ rest) := by
    rw [findFiltersLoop_renders (strBytes "find") ps hps (kw ++ rest) hkwnl []]
    rw [findFiltersLoop_break_gen (strBytes "find") kw rest ([] ++ ps) hkw hr]
    rfl
  have hloopS : findFiltersLoop (strBytes "search") (renderFilters ps ++ (kw ++ rest)) [] =
      .ok (ps, kw ++ rest) := by
    rw [findFiltersLoop_renders (strBytes "search") ps hps (kw ++ rest) hkwnl []]
    rw [findFiltersLoop_break_gen (strBytes "search") kw rest ([] ++ ps) hkw hr]
    rfl
  have hparseF : parse_command up (strBytes "find") (renderFilters ps ++ (kw ++ rest)) =
      some (.Sub (.Invalid (strBytes "find") (kw ++ rest)
        (.InvalidArgument (strBytes "wrong number of arguments for \"find\"")))) := by
    unfold parse_command
    rw [hsw, parseCommandBody_find, hloopF]
    show some (if kw ++ rest = [] then MPDCommand.Sub (.Find ps)
      else .Sub (.Invalid (strBytes "find") (kw ++ rest)
        (.InvalidArgument (wrongNumMsg (strBytes "find"))))) = _
    rw [if_neg hne]
    rfl
  have hparseS : parse_command up (strBytes "search") (renderFilters ps ++ (kw ++ rest)) =
      some (.Sub (.Invalid (strBytes "search") (kw ++ rest)
        (.InvalidArgument (strBytes "wrong number of arguments for \"search\"")))) := by
    unfold parse_command
    rw [hsw, parseCommandBody_search, hloopS]
    show some (if kw ++ rest = [] then MPDCommand.Sub (.Search ps)
      else .Sub (.Invalid (strBytes "search") (kw ++ rest)
        (.InvalidArgument (wrongNumMsg (strBytes "search"))))) = _
    rw [if_neg hne]
    rfl
  refine ⟨hparseF, hparseS, ?_, ?_⟩
  · unfold sessionReply
    rw [hparseF]
    exact processModel_invalid h _ _ _
  · unfold sessionReply
    rw [hparseS]
    exact processModel_invalid h _ _ _

/-- C6 witness: the amended claim at find artist foo album bar window 0:3
(two filter pairs before the unpaired keyword). -/
theorem C6_sort_window_rejected_witness :
    parse_command (fun _ => none) (strBytes "find")
        (renderFilters [(.Artist, strBytes "foo"), (.Album, strBytes "bar")] ++
          (strBytes "window" ++ 32 :: strBytes "0:3")) =
      some (.Sub (.Invalid (strBytes "find") (strBytes "window" ++ 32 :: strBytes "0:3")
        (.InvalidArgument (strBytes "wrong number of arguments for \"find\"")))) :=
  (C6_sort_window_rejected (fun _ => none) defaultHandler
    [(.Artist, strBytes "foo"), (.Album, strBytes "bar")] (by decide)
    (strBytes "window") (32 :: strBytes "0:3") (Or.inr rfl)
    (Or.inr ⟨strBytes "0:3", rfl⟩)).1

/-- C8: a lone command_list_end line parses to ListEnd at the top level, and
MPDCommand::process on ListEnd reaches the catch-all panic arm, so the
session task aborts instead of treating the line as a no-op; this supports
classifying the claim as a code bug. -/
theorem C8_stray_list_end_panics (up : Bytes → Option MUrl) (h : Handler) :
    MPDCommand.parseModel up (strBytes "command_list_end\n") = (.cmd (some .ListEnd), []) ∧
    MPDCommand.processModel h .ListEnd = ([], [], .panicked) ∧
    Server.pollModel up h (strBytes "command_list_end\n") = ([], .panicked, []) :=
  ⟨rfl, rfl, rfl⟩

/-- C10: a line that is empty before its newline makes command parsing return
no command, and poll reports the same clean stop as at end of file, with no
reply bytes written; the session loop of main returns on that result, so no
further commands are read. -/
theorem C10_blank_line_stops_session (up : Bytes → Option MUrl) (h : Handler) (s : Bytes) :
    Server.pollModel up h (10 :: s) = ([], .stopClean, s) ∧
    Server.pollModel up h [] = ([], .stopClean, []) ∧
    MPDCommand.parseModel up (10 :: s) = (.cmd none, s) := ⟨rfl, rfl, rfl⟩

/-- C10 witness: a blank line followed by a status command; the session stops
at the blank line without reading the rest. -/
theorem C10_blank_line_stops_session_witness :
    Server.pollModel (fun _ => none) defaultHandler (10 :: strBytes "status\n") =
      ([], .stopClean, strBytes "status\n") :=
  (C10_blank_line_stops_session (fun _ => none) defaultHandler (strBytes "status\n")).1

/-- A handler whose list_directory always answers with the given result;
used to connect the proxy list_directory model to the lsinfo reply. -/
def handlerWithLd (ld : Except Bytes (List LibraryEntry)) : Handler :=
  { defaultHandler with list_directory := fun _ => ld }

lemma kodiListDirectory_some (srcs : List KodiSource)
    (getDir : List Bytes → Except Bytes (List KodiFile)) (u : MUrl) :
    kodiListDirectory (.ok srcs) getDir (some u) =
      if u.scheme ≠ "file" then some (.error (strBytes "Unsupported URI scheme"))
      else kodiListDirectory.kodiListDirectoryGo srcs getDir u.path := rfl

lemma kodiListDirectoryGo_def (srcs : List KodiSource)
    (getDir : List Bytes → Except Bytes (List KodiFile)) (path : List Bytes) :
    kodiListDirectory.kodiListDirectoryGo srcs getDir path =
      (if path = [] then
        some (.ok (srcs.map (fun s => .Directory s.label none)))
      else
        match to_internal srcs path with
        | some internal =>
          match getDir internal with
          | .error e => some (.error e)
          | .ok files =>
            (files.mapM (fun f =>
              (to_external srcs (pathComponents f.file)).map
                (fun ext => kodiFileToEntry ext f))).map .ok
        | none => some (.ok [])) := rfl

/-- C5 counterexample: with one source labelled Music, an lsinfo URI for the
unresolvable path Movies/x yields a successful empty listing and the bare OK
terminator, not the NoExist ACK with code 50 the claim requires. -/
theorem C5_counterexample :
    kodiListDirectory (.ok [⟨strBytes "Music", strBytes "special://music/"⟩])
        (fun _ => .ok []) (some ⟨"file", [strBytes "Movies", strBytes "x"]⟩) =
      some (.ok []) ∧
    (MPDCommand.processModel (handlerWithLd (.ok []))
        (.Sub (.LsInfo (some ⟨"file", [strBytes "Movies", strBytes "x"]⟩)))).1 =
      strBytes "OK\n" := ⟨rfl, rfl⟩

/-- C5 amended: a non-file scheme makes list_directory fail with Unsupported
URI scheme, and every list_directory failure is rendered by lsinfo as the
NoExist ACK with code 50; but a file URI whose non-empty path the path mapper
cannot resolve produces a successful empty listing, so the reply is the entry
renders followed by OK rather than an ACK. -/
theorem C5_lsinfo_errors (sources : List KodiSource)
    (getDir : List Bytes → Except Bytes (List KodiFile)) (u : MUrl)
    (ld : Except Bytes (List LibraryEntry))
    (hld : kodiListDirectory (.ok sources) getDir (some u) = some ld) :
    (u.scheme ≠ "file" → ld = .error (strBytes "Unsupported URI scheme")) ∧
    (∀ msg, ld = .error msg →
      (MPDCommand.processModel (handlerWithLd ld) (.Sub (.LsInfo (some u)))).1 =
        ackLine 50 0 (strBytes "lsinfo") msg) ∧
    (u.scheme = "file" → u.path ≠ [] → to_internal sources u.path = none → ld = .ok []) ∧
    (∀ entries, ld = .ok entries →
      (MPDCommand.processModel (handlerWithLd ld) (.Sub (.LsInfo (some u)))).1 =
        (entries.map LibraryEntry.render).flatten ++ strBytes "OK\n") := by
  refine ⟨?_, ?_, ?_, ?_⟩
  · intro hs
    rw [kodiListDirectory_some, if_pos hs] at hld
    exact (Option.some.injEq _ _ ▸ hld).symm
  · intro msg hmsg
    subst hmsg
    rfl
  · intro hs hp hint
    rw [kodiListDirectory_some, if_neg (by simp [hs]), kodiListDirectoryGo_def,
      if_neg hp, hint] at hld
    exact (Option.some.injEq _ _ ▸ hld).symm
  · intro entries he
    subst he
    rfl

/-- C5 witness: the amended claim at a concrete http URI. -/
theorem C5_lsinfo_errors_witness :
    (MPDCommand.processModel (handlerWithLd (.error (strBytes "Unsupported URI scheme")))
        (.Sub (.LsInfo (some ⟨"http", [strBytes "x"]⟩)))).1 =
      ackLine 50 0 (strBytes "lsinfo") (strBytes "Unsupported URI scheme") :=
  (C5_lsinfo_errors [] (fun _ => .ok []) ⟨"http", [strBytes "x"]⟩
    (.error (strBytes "Unsupported URI scheme")) rfl).2.1
    (strBytes "Unsupported URI scheme") rfl

lemma sumCounts_bump (s : Ledger) (e : MPDSubsystem) :
    sumCounts ⟨fun x => if x = e then s.counts x + 1 else s.counts x, s.version, s.published⟩
      = sumCounts s + 1 := by
  cases e <;> simp [sumCounts, allSubsystems] <;> omega

lemma length_filter_set (p : EventCall → Bool) (l : List EventCall) :
    ∀ (i : Nat) (c c' : EventCall), l[i]? = some c →
      ((l.set i c').filter p).length + (if p c then 1 else 0)
        = (l.filter p).length + (if p c' then 1 else 0) := by
  induction l with
  | nil => intro i c c' h; simp at h
  | cons a l ih =>
    intro i c c' h
    cases i with
    | zero =>
      rw [List.getElem?_cons_zero] at h
      simp only [Option.some.injEq] at h
      rw [List.set_cons_zero, List.filter_cons, List.filter_cons, h]
      by_cases hc : p c <;> by_cases hc' : p c' <;> simp [hc, hc'] <;> omega
    | succ n =>
      rw [List.getElem?_cons_succ] at h
      rw [List.set_cons_succ, List.filter_cons, List.filter_cons]
      have hrec := ih n c c' h
      by_cases ha : p a <;> simp [ha] <;> omega

lemma countedCalls_set (l : List EventCall) (i : Nat) (c c' : EventCall)
    (h : l[i]? = some c) :
    countedCalls (l.set i c') + (if c.phase.pastCount then 1 else 0)
      = countedCalls l + (if c'.phase.pastCount then 1 else 0) := by
  simpa [countedCalls] using length_filter_set (fun c => c.phase.pastCount) l i c c' h

lemma versionedCalls_set (l : List EventCall) (i : Nat) (c c' : EventCall)
    (h : l[i]? = some c) :
    versionedCalls (l.set i c') + (if c.phase.pastVersion then 1 else 0)
      = versionedCalls l + (if c'.phase.pastVersion then 1 else 0) := by
  simpa [versionedCalls] using length_filter_set (fun c => c.phase.pastVersion) l i c c' h

lemma ledgerInv_step (sys : LedgerSys) (i : Nat) (hinv : LedgerInv sys) :
    LedgerInv (sys.step i) := by
  obtain ⟨h1, h2, h3, h4⟩ := hinv
  unfold LedgerSys.step
  cases hc : sys.calls[i]? with
  | none => exact ⟨h1, h2, h3, h4⟩
  | some c =>
    have hmem : c ∈ sys.calls := List.getElem?_mem hc
    obtain ⟨e, ph⟩ := c
    cases ph with
    | start =>
      have hcnt := countedCalls_set sys.calls i ⟨e, .start⟩
        ⟨e, .counted (sys.state.counts e)⟩ hc
      have hver := versionedCalls_set sys.calls i ⟨e, .start⟩
        ⟨e, .counted (sys.state.counts e)⟩ hc
      simp [CallPhase.pastCount, CallPhase.pastVersion] at hcnt hver
      refine ⟨?_, ?_, ?_, ?_⟩
      · show sumCounts ⟨fun x => if x = e then sys.state.counts x + 1 else sys.state.counts x,
            sys.state.version, sys.state.published⟩
          = countedCalls (sys.calls.set i ⟨e, CallPhase.counted (sys.state.counts e)⟩)
        rw [sumCounts_bump, h1]
        omega
      · show sys.state.version
          = versionedCalls (sys.calls.set i ⟨e, CallPhase.counted (sys.state.counts e)⟩)
        omega
      · exact h3
      · intro c'' hc'' r v hph
        have hc2 : c'' ∈ sys.calls.set i ⟨e, .counted (sys.state.counts e)⟩ := hc''
        rcases List.mem_or_eq_of_mem_set hc2 with hin | heq
        · exact h4 c'' hin r v hph
        · subst heq
          have hph' : CallPhase.counted (sys.state.counts e) = .versioned r v := hph
          cases hph'
    | counted ret =>
      have hcnt := countedCalls_set sys.calls i ⟨e, .counted ret⟩
        ⟨e, .versioned ret sys.state.version⟩ hc
      have hver := versionedCalls_set sys.calls i ⟨e, .counted ret⟩
        ⟨e, .versioned ret sys.state.version⟩ hc
      simp [CallPhase.pastCount, CallPhase.pastVersion] at hcnt hver
      refine ⟨?_, ?_, ?_, ?_⟩
      · show sumCounts ⟨sys.state.counts, sys.state.version + 1, sys.state.published⟩
          = countedCalls (sys.calls.set i ⟨e, CallPhase.versioned ret sys.state.version⟩)
        have hs : sumCounts ⟨sys.state.counts, sys.state.version + 1, sys.state.published⟩
            = sumCounts sys.state := rfl
        rw [hs, h1]
        omega
      · show sys.state.version + 1
          = versionedCalls (sys.calls.set i ⟨e, CallPhase.versioned ret sys.state.version⟩)
        omega
      · show sys.state.published ≤ sys.state.version + 1
        omega
      · intro c'' hc'' r v hph
        show v < sys.state.version + 1
        have hc2 : c'' ∈ sys.calls.set i ⟨e, .versioned ret sys.state.version⟩ := hc''
        rcases List.mem_or_eq_of_mem_set hc2 with hin | heq
        · have := h4 c'' hin r v hph
          omega
        · subst heq
          have hph' : CallPhase.versioned ret sys.state.version = .versioned r v := hph
          cases hph'
          omega
    | versioned ret v =>
      have hcnt := countedCalls_set sys.calls i ⟨e, .versioned ret v⟩
        ⟨e, .finished ret⟩ hc
      have hver := versionedCalls_set sys.calls i ⟨e, .versioned ret v⟩
        ⟨e, .finished ret⟩ hc
      simp [CallPhase.pastCount, CallPhase.pastVersion] at hcnt hver
      refine ⟨?_, ?_, ?_, ?_⟩
      · show sumCounts ⟨sys.state.counts, sys.state.version, v + 1⟩
          = countedCalls (sys.calls.set i ⟨e, CallPhase.finished ret⟩)
        have hs : sumCounts ⟨sys.state.counts, sys.state.version, v + 1⟩
            = sumCounts sys.state := rfl
        rw [hs, h1]
        omega
      · show sys.state.version = versionedCalls (sys.calls.set i ⟨e, CallPhase.finished ret⟩)
        rw [h2]
        omega
      · show v + 1 ≤ sys.state.version
        exact h4 ⟨e, .versioned ret v⟩ hmem ret v rfl
      · intro c'' hc'' r w hph
        show w < sys.state.version
        have hc2 : c'' ∈ sys.calls.set i ⟨e, .finished ret⟩ := hc''
        rcases List.mem_or_eq_of_mem_set hc2 with hin | heq
        · exact h4 c'' hin r w hph
        · subst heq
          have hph' : CallPhase.finished ret = .versioned r w := hph
          cases hph'
    | finished ret =>
      have hcnt := countedCalls_set sys.calls i ⟨e, .finished ret⟩
        ⟨e, .finished ret⟩ hc
      have hver := versionedCalls_set sys.calls i ⟨e, .finished ret⟩
        ⟨e, .finished ret⟩ hc
      simp [CallPhase.pastCount, CallPhase.pastVersion] at hcnt hver
      refine ⟨?_, ?_, ?_, ?_⟩
      · show sumCounts sys.state = countedCalls (sys.calls.set i ⟨e, CallPhase.finished ret⟩)
        rw [h1]
        omega
      · show sys.state.version = versionedCalls (sys.calls.set i ⟨e, CallPhase.finished ret⟩)
        rw [h2]
        omega
      · exact h3
      · intro c'' hc'' r w hph
        show w < sys.state.version
        have hc2 : c'' ∈ sys.calls.set i ⟨e, .finished ret⟩ := hc''
        rcases List.mem_or_eq_of_mem_set hc2 with hin | heq
        · exact h4 c'' hin r w hph
        · subst heq
          have hph' : CallPhase.finished ret = .versioned r w := hph
          cases hph'

lemma countedCalls_start (l : List MPDSubsystem) :
    countedCalls (l.map (fun e => ⟨e, .start⟩)) = 0 := by
  induction l with
  | nil => rfl
  | cons e l ih =>
    simpa [countedCalls, List.filter_cons, CallPhase.pastCount] using ih

lemma versionedCalls_start (l : List MPDSubsystem) :
    versionedCalls (l.map (fun e => ⟨e, .start⟩)) = 0 := by
  induction l with
  | nil => rfl
  | cons e l ih =>
    simpa [versionedCalls, List.filter_cons, CallPhase.pastVersion] using ih

lemma ledgerInv_init (pending : List MPDSubsystem) : LedgerInv (LedgerSys.init pending) := by
  refine ⟨?_, ?_, Nat.le_refl 0, ?_⟩
  · show sumCounts Ledger.init = countedCalls (pending.map (fun e => ⟨e, .start⟩))
    rw [countedCalls_start]
    simp [sumCounts, Ledger.init, allSubsystems]
  · show (0 : Nat) = versionedCalls (pending.map (fun e => ⟨e, .start⟩))
    rw [versionedCalls_start]
  · intro c hcm r v hph
    simp only [LedgerSys.init, List.mem_map] at hcm
    obtain ⟨e, _, heq⟩ := hcm
    rw [← heq] at hph
    simp at hph

lemma ledgerInv_run (sched : List Nat) :
    ∀ sys : LedgerSys, LedgerInv sys → LedgerInv (sys.run sched) := by
  induction sched with
  | nil => intro sys hinv; exact hinv
  | cons i sched ih =>
    intro sys hinv
    show LedgerInv ((i :: sched).foldl LedgerSys.step sys)
    rw [List.foldl_cons]
    exact ih (sys.step i) (ledgerInv_step sys i hinv)

lemma counts_le_step (sys : LedgerSys) (i : Nat) (e : MPDSubsystem) :
    sys.state.counts e ≤ (sys.step i).state.counts e := by
  unfold LedgerSys.step
  cases sys.calls[i]? with
  | none => exact Nat.le_refl _
  | some c =>
    obtain ⟨x, ph⟩ := c
    cases ph with
    | start =>
      show sys.state.counts e ≤ if e = x then sys.state.counts e + 1 else sys.state.counts e
      split <;> omega
    | counted ret => exact Nat.le_refl _
    | versioned ret v => exact Nat.le_refl _
    | finished ret => exact Nat.le_refl _

lemma counts_le_run (sched : List Nat) :
    ∀ (sys : LedgerSys) (e : MPDSubsystem),
      sys.state.counts e ≤ (sys.run sched).state.counts e := by
  induction sched with
  | nil => intro sys e; exact Nat.le_refl _
  | cons i sched ih =>
    intro sys e
    have h1 := counts_le_step sys i e
    have h2 := ih (sys.step i) e
    show sys.state.counts e ≤ ((i :: sched).foldl LedgerSys.step sys).state.counts e
    rw [List.foldl_cons]
    exact Nat.le_trans h1 h2

lemma done_filter_all (calls : List EventCall) (h : calls.all EventCall.isDone = true) :
    countedCalls calls = calls.length ∧ versionedCalls calls = calls.length := by
  induction calls with
  | nil => exact ⟨rfl, rfl⟩
  | cons c rest ih =>
    rw [List.all_cons, Bool.and_eq_true] at h
    obtain ⟨hcd, hrest⟩ := h
    obtain ⟨ih1, ih2⟩ := ih hrest
    obtain ⟨e, ph⟩ := c
    cases ph with
    | start => simp [EventCall.isDone] at hcd
    | counted ret => simp [EventCall.isDone] at hcd
    | versioned ret v => simp [EventCall.isDone] at hcd
    | finished ret =>
      constructor
      · simp only [countedCalls, List.filter_cons, CallPhase.pastCount, if_true,
          List.length_cons] at ih1 ⊢
        omega
      · simp only [versionedCalls, List.filter_cons, CallPhase.pastVersion, if_true,
          List.length_cons] at ih2 ⊢
        omega

lemma calls_length_run (sched : List Nat) :
    ∀ sys : LedgerSys, (sys.run sched).calls.length = sys.calls.length := by
  induction sched with
  | nil => intro sys; rfl
  | cons i sched ih =>
    intro sys
    have hstep : (sys.step i).calls.length = sys.calls.length := by
      unfold LedgerSys.step
      cases sys.calls[i]? with
      | none => rfl
      | some c => exact List.length_set sys.calls i _
    have hrun := ih (sys.step i)
    show ((sys.step i).run sched).calls.length = sys.calls.length
    rw [hrun, hstep]

/-- C9 counterexample: two event_new(Player) calls racing (the poller task
against a session seek) under the schedule that runs the first call up to
its version fetch_add, lets the second call run to completion, and only then
lets the first call send its captured version: the quiescent final state has
version 2 and counters summing to 2, but the watch channel holds the stale
value 1, refuting the claim that the published global version always equals
the sum of the per-subsystem counters. -/
theorem C9_counterexample :
    ((LedgerSys.init [MPDSubsystem.Player, MPDSubsystem.Player]).run
        [0, 0, 1, 1, 1, 0]).calls.all EventCall.isDone = true ∧
    ((LedgerSys.init [MPDSubsystem.Player, MPDSubsystem.Player]).run
        [0, 0, 1, 1, 1, 0]).state.version = 2 ∧
    sumCounts ((LedgerSys.init [MPDSubsystem.Player, MPDSubsystem.Player]).run
        [0, 0, 1, 1, 1, 0]).state = 2 ∧
    ((LedgerSys.init [MPDSubsystem.Player, MPDSubsystem.Player]).run
        [0, 0, 1, 1, 1, 0]).state.published = 1 ∧
    ((LedgerSys.init [MPDSubsystem.Player, MPDSubsystem.Player]).run
        [0, 0, 1, 1, 1, 0]).state.published ≠
      sumCounts ((LedgerSys.init [MPDSubsystem.Player, MPDSubsystem.Player]).run
        [0, 0, 1, 1, 1, 0]).state := by
  refine ⟨rfl, rfl, by decide, rfl, by decide⟩

/-- C9 amended: in every interleaving of concurrent event_new calls (the
poller and the session-task seek and seek_current callers), every
per-subsystem counter is non-decreasing as the schedule extends, and the
published watch value never exceeds the version counter; in every quiescent
state (all calls finished) the version equals the sum of the per-subsystem
counters, which equals the number of event_new calls. The published value,
however, can be stale in a quiescent state, strictly below the sum of the
counters, because the two fetch_adds and the watch send of distinct calls
interleave. -/
theorem C9_ledger_interleaved (pending : List MPDSubsystem) (sched extra : List Nat)
    (e : MPDSubsystem) :
    ((LedgerSys.init pending).run sched).state.counts e ≤
      (((LedgerSys.init pending).run sched).run extra).state.counts e ∧
    ((LedgerSys.init pending).run sched).state.published ≤
      ((LedgerSys.init pending).run sched).state.version ∧
    (((LedgerSys.init pending).run sched).calls.all EventCall.isDone = true →
      ((LedgerSys.init pending).run sched).state.version =
          sumCounts ((LedgerSys.init pending).run sched).state ∧
      sumCounts ((LedgerSys.init pending).run sched).state = pending.length) := by
  obtain ⟨h1, h2, h3, _⟩ := ledgerInv_run sched _ (ledgerInv_init pending)
  refine ⟨counts_le_run extra _ e, h3, ?_⟩
  intro hdone
  obtain ⟨hcnt, hver⟩ := done_filter_all _ hdone
  have hlen : ((LedgerSys.init pending).run sched).calls.length = pending.length := by
    rw [calls_length_run]
    simp [LedgerSys.init]
  constructor
  · rw [h2, hver, hlen, ← hlen, ← hcnt, ← h1]
  · rw [h1, hcnt, hlen]

/-- C9 witness: the amended theorem at two interleaved calls (Player from
the poller, Mixer from a session seek) run to quiescence. -/
theorem C9_ledger_interleaved_witness :
    ((LedgerSys.init [MPDSubsystem.Player, MPDSubsystem.Mixer]).run
        [0, 0, 0, 1, 1, 1]).state.version =
      sumCounts ((LedgerSys.init [MPDSubsystem.Player, MPDSubsystem.Mixer]).run
        [0, 0, 0, 1, 1, 1]).state ∧
    sumCounts ((LedgerSys.init [MPDSubsystem.Player, MPDSubsystem.Mixer]).run
        [0, 0, 0, 1, 1, 1]).state = 2 :=
  (C9_ledger_interleaved [MPDSubsystem.Player, MPDSubsystem.Mixer] [0, 0, 0, 1, 1, 1] []
    MPDSubsystem.Player).2.2 rfl

/-- Bytes a sub-command writes. -/
def subOut (h : Handler) (c : MPDSubCommand) : Bytes := (processSub h c).1

/-- Handler calls a sub-command makes. -/
def subEvs (h : Handler) (c : MPDSubCommand) : List HEvent := (processSub h c).2.1

/-- The CommandError of a sub-command, when it fails at the protocol level. -/
def subErr (h : Handler) (c : MPDSubCommand) : Option CommandError :=
  match (processSub h c).2.2 with
  | .err e => some e
  | _ => none

/-- The list_OK line, emitted only for lists opened with command_list_ok_begin. -/
def listOKBytes (ok : Bool) : Bytes := if ok then strBytes "list_OK\n" else []

/-- Position of the first failing sub-command of a list, if any. -/
def firstErr (h : Handler) : List MPDSubCommand → Option Nat
  | [] => none
  | c :: rest =>
    if (subErr h c).isSome then some 0 else (firstErr h rest).map (· + 1)

lemma processListGo_cons_def (h : Handler) (ok : Bool) (c : MPDSubCommand)
    (rest : List MPDSubCommand) (i : Nat) :
    processListGo h ok (c :: rest) i =
      (match (processSub h c).2.2 with
       | .ok =>
         ((processSub h c).1 ++ (if ok then strBytes "list_OK\n" else []) ++
            (processListGo h ok rest (i + 1)).1,
          (processSub h c).2.1 ++ (processListGo h ok rest (i + 1)).2.1,
          (processListGo h ok rest (i + 1)).2.2)
       | .err e =>
         ((processSub h c).1 ++ ackLine e.code i c.name e.msg, (processSub h c).2.1, .done)
       | .ioErr m => ((processSub h c).1, (processSub h c).2.1, .ioErrored m)
       | .diverge => ((processSub h c).1, (processSub h c).2.1, .hung)) := rfl

lemma processListGo_cons_ok (h : Handler) (ok : Bool) (c : MPDSubCommand)
    (rest : List MPDSubCommand) (i : Nat) (hc : (processSub h c).2.2 = .ok) :
    processListGo h ok (c :: rest) i =
      ((processSub h c).1 ++ (if ok then strBytes "list_OK\n" else []) ++
         (processListGo h ok rest (i + 1)).1,
       (processSub h c).2.1 ++ (processListGo h ok rest (i + 1)).2.1,
       (processListGo h ok rest (i + 1)).2.2) := by
  rw [processListGo_cons_def, hc]

lemma processListGo_cons_err (h : Handler) (ok : Bool) (c : MPDSubCommand)
    (rest : List MPDSubCommand) (i : Nat) (e : CommandError)
    (hc : (processSub h c).2.2 = .err e) :
    processListGo h ok (c :: rest) i =
      ((processSub h c).1 ++ ackLine e.code i c.name e.msg, (processSub h c).2.1, .done) := by
  rw [processListGo_cons_def, hc]

lemma processListGo_spec (h : Handler) (ok : Bool) :
    ∀ subs : List MPDSubCommand,
    (∀ c ∈ subs, (processSub h c).2.2 = SubOutcome.ok ∨
      ∃ e, (processSub h c).2.2 = SubOutcome.err e) → ∀ i : Nat,
    (match firstErr h subs with
     | none =>
       processListGo h ok subs i =
         ((subs.map (fun c => subOut h c ++ listOKBytes ok)).flatten ++ strBytes "OK\n",
          (subs.map (subEvs h)).flatten, .done)
     | some j => ∃ c e, subs[j]? = some c ∧ subErr h c = some e ∧
       processListGo h ok subs i =
         (((subs.take j).map (fun c2 => subOut h c2 ++ listOKBytes ok)).flatten ++
            (subOut h c ++ ackLine e.code (i + j) c.name e.msg),
          ((subs.take (j + 1)).map (subEvs h)).flatten, .done)) := by
  intro subs
  induction subs with
  | nil =>
    intro _ i
    simp [firstErr, processListGo]
  | cons c rest ih =>
    intro hall i
    have hrest : ∀ c2 ∈ rest, (processSub h c2).2.2 = SubOutcome.ok ∨
        ∃ e, (processSub h c2).2.2 = SubOutcome.err e :=
      fun c2 h2 => hall c2 (List.mem_cons_of_mem _ h2)
    rcases hall c (List.mem_cons_self ..) with hok | ⟨e, herr⟩
    · have hse : subErr h c = none := by simp [subErr, hok]
      have ihr := ih hrest (i + 1)
      rw [show firstErr h (c :: rest) = (firstErr h rest).map (· + 1) from by
        simp [firstErr, hse]]
      cases hidx : firstErr h rest with
      | none =>
        rw [hidx] at ihr
        simp only [Option.map_none']
        rw [processListGo_cons_ok h ok c rest i hok, ihr]
        simp [subOut, subEvs, listOKBytes, List.append_assoc]
      | some j =>
        rw [hidx] at ihr
        obtain ⟨c2, e2, hget, hse2, heq⟩ := ihr
        simp only [Option.map_some']
        refine ⟨c2, e2, by simpa using hget, hse2, ?_⟩
        rw [processListGo_cons_ok h ok c rest i hok, heq]
        have hidx2 : i + 1 + j = i + (j + 1) := by omega
        simp [subOut, subEvs, listOKBytes, List.append_assoc, hidx2]
    · have hse : subErr h c = some e := by simp [subErr, herr]
      rw [show firstErr h (c :: rest) = some 0 from by simp [firstErr, hse]]
      refine ⟨c, e, by simp, hse, ?_⟩
      rw [processListGo_cons_err h ok c rest i e herr]
      simp [subOut, subEvs]

/-- C1: processing a command list collected between a list begin and
command_list_end emits, when no sub-command fails, each sub-command's output
followed by one list_OK line (only when the list was opened with
command_list_ok_begin) in list order and one final OK line, with every
sub-command executed; when some sub-command fails, the outputs and list_OK
lines of the successful prefix are followed by the failing sub-command's
output and exactly one ACK line whose idx is the failing sub-command's
zero-based position, no OK terminator is written, and the recorded handler
calls stop at the failing sub-command, so no later sub-command is executed.
The hypothesis restricts the list to sub-commands that complete at the
protocol level (no transport-error propagation and no diverging idle). -/
theorem C1_command_list_framing (h : Handler) (ok : Bool) (subs : List MPDSubCommand)
    (hterm : ∀ c ∈ subs, (processSub h c).2.2 = SubOutcome.ok ∨
      ∃ e, (processSub h c).2.2 = SubOutcome.err e) :
    (MPDCommand.processModel h (.ListBegin ok subs)).2.2 = .done ∧
    (match firstErr h subs with
     | none =>
       MPDCommand.processModel h (.ListBegin ok subs) =
         ((subs.map (fun c => subOut h c ++ listOKBytes ok)).flatten ++ strBytes "OK\n",
          (subs.map (subEvs h)).flatten, .done)
     | some j => ∃ c e, subs[j]? = some c ∧ subErr h c = some e ∧
       MPDCommand.processModel h (.ListBegin ok subs) =
         (((subs.take j).map (fun c2 => subOut h c2 ++ listOKBytes ok)).flatten ++
            (subOut h c ++ ackLine e.code j c.name e.msg),
          ((subs.take (j + 1)).map (subEvs h)).flatten, .done)) := by
  have hspec := processListGo_spec h ok subs hterm 0
  have hpm : MPDCommand.processModel h (.ListBegin ok subs) = processListGo h ok subs 0 := rfl
  rw [← hpm] at hspec
  simp only [Nat.zero_add] at hspec
  have hdone : (MPDCommand.processModel h (.ListBegin ok subs)).2.2 = .done := by
    have hs2 := hspec
    split at hs2
    · rw [hs2]
    · obtain ⟨c, e, _, _, heq⟩ := hs2
      rw [heq]
  exact ⟨hdone, hspec⟩

/-- C1 witness: the framing theorem applied to the concrete ok-list
ping, bogus, ping (the unknown command parses to an Invalid sub-command). -/
theorem C1_command_list_framing_witness :
    (MPDCommand.processModel defaultHandler (.ListBegin true
      [.Ping, .Invalid [] [] (.Unknown (strBytes "unknown command \"bogus\"")), .Ping])).2.2 =
      ProcOutcome.done :=
  (C1_command_list_framing defaultHandler true
    [.Ping, .Invalid [] [] (.Unknown (strBytes "unknown command \"bogus\"")), .Ping]
    (by
      intro c hc
      fin_cases hc
      · exact Or.inl rfl
      · exact Or.inr ⟨_, rfl⟩
      · exact Or.inl rfl)).1

example :
    (MPDCommand.processModel defaultHandler (.ListBegin true
      [.Ping, .Invalid [] [] (.Unknown (strBytes "unknown command \"bogus\"")), .Ping])).1 =
      strBytes "list_OK\nACK [5@1] \x7b\x7d unknown command \"bogus\"\n" := rfl

example :
    (MPDCommand.processModel defaultHandler (.ListBegin false [.Ping, .Ping])).1 =
      strBytes "OK\n" := rfl

/-- C2: for all valid (64-bit) integers A and B, the bare bytes of A, a colon
and the bytes of B parse to the inclusive range A..=B with no remaining input;
the bare bytes of N alone parse to N..=N; when the input contains a colon each
side must be a valid integer or the parse fails (shown on the inputs ":5",
"5:" and "5:x"); no start ≤ end check is performed (A and B are arbitrary). -/
theorem C2_range_parse (A B : Nat) (hA : A ≤ USIZE_MAX) (hB : B ≤ USIZE_MAX) :
    rangeFromBytes (decBytes A ++ 58 :: decBytes B) = .ok ((A, B), []) ∧
    rangeFromBytes (decBytes A) = .ok ((A, A), []) ∧
    rangeFromBytes (strBytes ":5") = .error (.InvalidDigit none 0) ∧
    rangeFromBytes (strBytes "5:") = .error .Empty ∧
    rangeFromBytes (strBytes "5:x") = .error (.InvalidDigit none 0) := by
  refine ⟨?_, ?_, rfl, rfl, rfl⟩
  · have h1 : usizeFromBytes (decBytes A ++ 58 :: decBytes B) =
        .error (.InvalidDigit (some A) (decBytes A).length) := by
      rw [usize_decBytes_cont A hA (58 :: decBytes B)]
      rw [parseIntLoop_cons_nondigit 32 A _ 58 _ (by decide)]
      simp
    rw [rangeFromBytes, h1]
    simp [getD_append_len, drop_append_len, usize_decBytes B hB]
    rw [List.getElem_append_right (Nat.le_refl _)]
    simp
  · rw [rangeFromBytes, usize_decBytes A hA]

/-- C2 witness: the range parse at the concrete input "5:2", also showing that
start greater than end is returned as-is. -/
theorem C2_range_parse_witness : rangeFromBytes (strBytes "5:2") = .ok ((5, 2), []) := by
  have h := (C2_range_parse 5 2 (by norm_num [USIZE_MAX]) (by norm_num [USIZE_MAX])).1
  have e : strBytes "5:2" = decBytes 5 ++ 58 :: decBytes 2 := rfl
  rw [e]
  exact h

/-- C3: for every N up to 10 million the decimal bytes of N, bare or wrapped in
double quotes, parse to exactly N with an empty remaining slice; an empty digit
run (empty input or an empty quoted string) fails with Empty; a digit run whose
value exceeds usize::MAX fails with Overflow rather than saturating. -/
theorem C3_integer_roundtrip (n : Nat) (hn : n ≤ 10000000) :
    usizeFromBytes (decBytes n) = .ok (n, []) ∧
    usizeFromBytes (34 :: decBytes n ++ [34]) = .ok (n, []) ∧
    usizeFromBytes [] = .error .Empty ∧
    usizeFromBytes [34, 34] = .error .Empty ∧
    (∀ ds : Bytes, (∀ b ∈ ds, isDigitByte b = true) → ds ≠ [] →
      USIZE_MAX < digitsVal ds → usizeFromBytes ds = .error .Overflow) := by
  have hmax : n ≤ USIZE_MAX := le_trans hn (by norm_num [USIZE_MAX])
  refine ⟨usize_decBytes n hmax, usize_decBytes_quoted n hmax, rfl, rfl, ?_⟩
  intro ds hall hne hover
  match ds, hne with
  | d :: tail, _ =>
    have hd : isDigitByte d = true := hall d (List.mem_cons_self ..)
    have htail : ∀ b ∈ tail, isDigitByte b = true :=
      fun b hb => hall b (List.mem_cons_of_mem _ hb)
    have hd34 : ¬(d = 34) := by simp [isDigitByte] at hd; omega
    have hd48 : d - 48 ≤ USIZE_MAX := by
      simp [isDigitByte] at hd
      simp [USIZE_MAX]
      omega
    have hval : valFrom (d - 48) tail = digitsVal (d :: tail) := by
      simp [digitsVal, valFrom]
    rw [usizeFromBytes_cons_def, if_neg hd34, parse_integer_cons_digit 32 d tail hd]
    have hloop := parseIntLoop_digits 32 tail htail [] (d - 48) 1 hd48
    rw [List.append_nil] at hloop
    rw [hloop, hval, if_neg (by omega)]

/-- C3 witness: the integer parse at the concrete inputs 50 and "50". -/
theorem C3_integer_roundtrip_witness :
    usizeFromBytes (strBytes "50") = .ok (50, []) ∧
    usizeFromBytes (34 :: strBytes "50" ++ [34]) = .ok (50, []) := by
  have h := C3_integer_roundtrip 50 (by norm_num)
  have e : strBytes "50" = decBytes 50 := rfl
  rw [e]
  exact ⟨h.1, h.2.1⟩

end RustyKodi
